import Mathlib

/-!
Verification of the IL-2 Mission Debrief Reconstruction Engine
(`il2_mission_debrief.py`), shallowly embedded in Lean 4.

Modelling conventions:
* Python floats are modelled as `ℚ` (all numeric literals in the source are
  exact decimals, and no claim depends on float rounding).
* A raw log line is modelled as an already-decoded record (`LogLine`): the
  regex field extractors `_i`/`_f`/`_s` are modelled by `iNat`/`iInt`/`fD`
  applied to optional fields, keeping the sentinel defaults (-1 for ids,
  0 for damage, "" for strings).  A field matched with a nonnegative
  pattern `(\d+)` yields the sentinel for a stored negative value (`iNat`);
  a field matched with `(-?\d+)` passes negatives through (`iInt`).
* Python dicts are insertion-ordered; they are modelled as association
  lists with update-in-place / append-if-new (`aupsert`).
* `MissionStats.kills` stores target ids.  In the source it stores object
  references, but registration completes before the event loop, so each id
  maps to a single instance for the whole run and membership-by-identity
  coincides with membership-by-id; object data is read back through
  `objects`, which also models Python's aliasing of mutations.
* Time strings "HH:MM:SS" are modelled as the triple of their numeric
  components (`mission_time_to_hhmmss` renders triples injectively), with
  the float arithmetic `sec = t/50; h = sec//3600; m = (sec%3600)//60;
  s = sec%60` rendered as exact floor arithmetic `Int.fdiv`/`Int.fmod`.
-/

/- Batteries marks the `Rat` field operations `@[irreducible]`, which
blocks kernel evaluation of concrete instances; restore the default
reducibility so that `decide` can evaluate the embedded engine. -/
set_option allowUnsafeReducibility true

attribute [semireducible] Rat.add Rat.mul Rat.div Rat.sub Rat.inv Rat.neg

/-- Time-string value: the (hours, minutes, seconds) components of the
"HH:MM:SS" string produced by `mission_time_to_hhmmss`. -/
abbrev HMS : Type := Int × Int × Int

/-- `mission_time_to_hhmmss`: `sec = t / 50.0; h = int(sec // 3600);
m = int((sec % 3600) // 60); s = int(sec % 60)`, as exact floor/mod
arithmetic on ticks (50 ticks per second). -/
def mission_time_to_hhmmss (t : Int) : HMS :=
  (t.fdiv 180000, (t.fmod 180000).fdiv 3000, (t.fmod 3000).fdiv 50)

/-- Seconds denoted by an "HH:MM:SS" triple (`parse_time` inside
`_time_diff_seconds`, three-component case, the only one triples produce). -/
def hmsSecs (x : HMS) : Int := 3600 * x.1 + 60 * x.2.1 + x.2.2

/-- `_time_diff_seconds(time1, time2) = parse_time(time2) - parse_time(time1)`. -/
def time_diff_seconds (time1 time2 : HMS) : Int := hmsSecs time2 - hmsSecs time1

/-- Python truthiness of an optional integer field: `None` and `0` are
falsy, every other integer (including `-1`) is truthy. -/
def truthy (o : Option Int) : Bool :=
  match o with
  | some v => v != 0
  | none => false

/-- Python `a or b` on two integers (used for `pid or plid`). -/
def pyOr (a b : Int) : Int := if a ≠ 0 then a else b

/-- `_i` applied with a nonnegative pattern such as `PID:(\d+)`: an absent
field — or a stored negative value, which the pattern cannot match —
yields the sentinel `-1`. -/
def iNat (o : Option Int) : Int :=
  match o with
  | some v => if 0 ≤ v then v else -1
  | none => -1

/-- `_i` applied with a signed pattern such as `AID:(-?\d+)`. -/
def iInt (o : Option Int) : Int := o.getD (-1)

/-- `_f` applied to `DMG:([\d.]+)`: absent field yields `0.0`. -/
def fD (o : Option ℚ) : ℚ := o.getD 0

/-- Split a character list at the first occurrence of `pat`, returning the
part before it and the part after it (kernel-reducible helper for the
Python string operations below). -/
def splitFirstAux (pat : List Char) : List Char → Option (List Char × List Char)
  | [] => none
  | c :: rest =>
    if pat.isPrefixOf (c :: rest) then some ([], (c :: rest).drop pat.length)
    else (splitFirstAux pat rest).map (fun p => (c :: p.1, p.2))

/-- Python `s.lower()`. -/
def toLowerStr (s : String) : String := ⟨s.data.map Char.toLower⟩

/-- Whitespace characters removed by Python `str.strip()`. -/
def isSpaceChar (c : Char) : Bool :=
  c == ' ' || c == '\t' || c == '\n' || c == '\r'

/-- Python `s.strip()`. -/
def trimStr (s : String) : String :=
  ⟨((s.data.dropWhile isSpaceChar).reverse.dropWhile isSpaceChar).reverse⟩

/-- Python `s.startswith(pat)`. -/
def startsWithStr (s pat : String) : Bool := pat.data.isPrefixOf s.data

/-- Python substring test `pat in s`. -/
def strContains (s pat : String) : Bool :=
  pat.data.isEmpty || (splitFirstAux pat.data s.data).isSome

/-- Python `s.replace(pat, "", 1)`: remove the first occurrence of `pat`. -/
def replaceFirst (s pat : String) : String :=
  match splitFirstAux pat.data s.data with
  | some p => ⟨p.1 ++ p.2⟩
  | none => s

/-- Python `s.split(pat)[0]`. -/
def splitHead (s pat : String) : String :=
  match splitFirstAux pat.data s.data with
  | some p => ⟨p.1⟩
  | none => s

/-- Association-list lookup, modelling `dict.get` / `dict[k]`. -/
def alookup {α β : Type} [BEq α] (l : List (α × β)) (k : α) : Option β :=
  (l.find? (fun p => p.1 == k)).map (fun p => p.2)

/-- Association-list store `dict[k] = v`: update in place when the key is
present (Python dicts keep the original position), append otherwise. -/
def aupsert {α β : Type} [BEq α] (l : List (α × β)) (k : α) (v : β) : List (α × β) :=
  if (l.find? (fun p => p.1 == k)).isSome then
    l.map (fun p => if p.1 == k then (k, v) else p)
  else l ++ [(k, v)]

/-- The category configuration consumed by `GameObject.classify_type`:
`categories` is the insertion-ordered map category-name → keyword list,
`exclude` the (already lower-cased, per `_load_config`) exclusion list. -/
structure CatConfig where
  categories : List (String × List String)
  exclude : List String
deriving DecidableEq

/-- Normalisation performed at the top of `classify_type`:
`s = (type_ or "").lower().strip()`, then, when `s` starts with the static
marker and contains a bracket, `s = s.split('[')[0]` — the bracketed
coordinate suffix is dropped but the `static_` marker is KEPT. -/
def classifyNorm (type_ : String) : String :=
  let s := trimStr (toLowerStr type_)
  if startsWithStr s ("static_") && strContains s ("[") then splitHead s ("[") else s

/-- `GameObject.classify_type`: exclusion keywords match as substrings and
win; otherwise the first category whose (lower-cased) keyword list contains
the normalised tag exactly; otherwise "Unknown". -/
def classify_type (cfg : CatConfig) (type_ : String) : String :=
  let s := classifyNorm type_
  if cfg.exclude.any (fun x => strContains s x) then "Excluded"
  else
    match cfg.categories.find? (fun c => c.2.any (fun k => toLowerStr k == s)) with
    | some c => c.1
    | none => "Unknown"

/-- `GameObject`: one per distinct object id.  `typ` is the cleaned type
(`static_` marker removed and bracket suffix dropped for static objects,
as in `__init__`), while `category` is computed from the ORIGINAL tag. -/
structure GameObject where
  id : Int
  name : String
  typ : String
  is_static : Bool
  country : String
  category : String
  state : String
  time_of_kill : Option HMS
  altitude : Option Int
deriving DecidableEq

/-- `GameObject.__init__`. -/
def mkGameObject (cfg : CatConfig) (gid : Int) (name type_ country : String) : GameObject :=
  let isStatic := type_ ≠ "" ∧ startsWithStr (toLowerStr type_) ("static_")
  let typ :=
    if type_ ≠ "" ∧ startsWithStr (toLowerStr type_) ("static_") then
      splitHead (replaceFirst type_ ("static_")) ("[")
    else type_
  { id := gid, name := name, typ := typ,
    is_static := decide isStatic, country := country,
    category := classify_type cfg type_,
    state := "Alive", time_of_kill := none, altitude := none }

/-- The dynamically-typed `"time_raw"` dict value: an integer tick for
events created by `parse`, or the "HH:MM" minute key string that `to_json`
stores into aggregated damage events. -/
inductive TimeRawVal where
  | ticks (t : Int)
  | minuteKey (h m : Int)
deriving DecidableEq

/-- The `"damage"` string of a Damage-Taken event, e.g. `"4.2% aircraft"`,
`"19.2% pilot"` or `"4.2% aircraft, 19.2% pilot"`, modelled as the carried
percentage value(s) plus which of the two substrings occur (the value
`v = dmg*100` is carried exactly; the `%.1f` display rounding is not
observable by any consumer in the source). -/
inductive DmgStr where
  | aircraft (v : ℚ)
  | pilot (v : ℚ)
  | both (a p : ℚ)
deriving DecidableEq

/-- A timeline event dict.  Absent keys are `none` / `false`. -/
structure Event where
  time : HMS
  etype : String
  target : Option String
  damage : Option DmgStr
  altitude : Option Int
  time_raw : Option TimeRawVal
  category : Option String
  hard_landing : Bool
  original_target : Option String
deriving DecidableEq

/-- Event dict `{"time": ts, "type": "Damage Taken", "target": ..,
"damage": .., "altitude": .., "time_raw": t}` built in the AType:2 branch. -/
def damageEvent (ts : HMS) (target : String) (d : DmgStr) (alt : Option Int) (t : Int) : Event :=
  ⟨ts, "Damage Taken", some target, some d, alt, some (.ticks t), none, false, none⟩

/-- Event dict built in the AType:5 takeoff branch. -/
def takeoffEvent (ts : HMS) (alt : Option Int) (t : Int) : Event :=
  ⟨ts, "Takeoff", none, none, alt, some (.ticks t), none, false, none⟩

/-- Event dict `{"time": ts, "type": event_type, "altitude": ..,
"time_raw": t}` built in the AType:6/7 branch. -/
def outcomeEvent (ts : HMS) (etype : String) (alt : Option Int) (t : Int) : Event :=
  ⟨ts, etype, none, none, alt, some (.ticks t), none, false, none⟩

/-- Kill event dict built in `to_json` (the `"altitude"` key is present
only when the object recorded one, which `Option` models directly). -/
def killEvent (ts : HMS) (target category : String) (alt : Option Int) : Event :=
  ⟨ts, "Kill", some target, none, alt, none, some category, false, none⟩

/-- A damage hit record `{"attacker": a, "target": t, "damage": d, "time": ts}`. -/
structure HitRec where
  attacker : Int
  target : Int
  damage : ℚ
  time : HMS
deriving DecidableEq

/-- `MissionStats`. -/
structure MissionStats where
  player_id : Option Int
  player_name : Option String
  player_aircraft : Option String
  player_pid : Option Int
  player_plid : Option Int
  objects : List (Int × GameObject)
  hits : List HitRec
  kills : List Int
  events : List Event
  wounded : Bool
  total_aircraft_damage : ℚ
  total_pilot_damage : ℚ
  landed : Bool
  crashed : Bool
  pilot_separation_time : Option Int
  final_state : String
  takeoff_time : Option Int
  landing_time : Option Int
  flight_duration : Option HMS
deriving DecidableEq

/-- `MissionStats.__init__`. -/
def initStats : MissionStats :=
  ⟨none, none, none, none, none, [], [], [], [], false, 0, 0,
   false, false, none, "Alive", none, none, none⟩

/-- `MissionStats.add_object`. -/
def add_object (st : MissionStats) (obj : GameObject) : MissionStats :=
  { st with objects := aupsert st.objects obj.id obj }

/-- `MissionStats.add_hit`. -/
def add_hit (st : MissionStats) (a t : Int) (d : ℚ) (ts : HMS) : MissionStats :=
  { st with hits := st.hits ++ [⟨a, t, d, ts⟩] }

/-- `MissionStats.add_kill`: silently ignore Excluded targets; otherwise
mark the object destroyed at `ts` and append it to `kills` unless already
present. -/
def add_kill (st : MissionStats) (tid : Int) (ts : HMS) : MissionStats :=
  match alookup st.objects tid with
  | none => st
  | some obj =>
    if obj.category = "Excluded" then st
    else
      let obj' := { obj with state := "Destroyed", time_of_kill := some ts }
      let st' := { st with objects := aupsert st.objects tid obj' }
      if st'.kills.contains tid then st' else { st' with kills := st'.kills ++ [tid] }

/-- `obj.altitude = altitude` guarded by `if obj and altitude is not None`
(also models the `if obj and pos_match` variant, `pos_match` presence being
exactly altitude presence). -/
def setObjAltitude (st : MissionStats) (tid : Int) (alt : Option Int) : MissionStats :=
  match alookup st.objects tid, alt with
  | some obj, some a =>
      { st with objects := aupsert st.objects tid { obj with altitude := some a } }
  | _, _ => st

/-- A raw log line, already decoded into its labelled fields (the regex
extraction itself is not modelled; each field holds what its regex group
would capture, `none` when the pattern does not occur).  `alt` is
`int(float(pos_match.group(2)))` when a `POS(x,y,z)` group is present.
`ispl` models the substring test `"ISPL:1" in ln`, `paratrooper` the test
`"Paratrooper" in ln`.  `idf` is the `ID:` field of AType:12 lines. -/
structure LogLine where
  atype : Nat
  t : Option Nat
  aid : Option Int
  tid : Option Int
  idf : Option Int
  dmg : Option ℚ
  pid : Option Int
  plid : Option Int
  botid : Option Int
  parentid : Option Int
  ispl : Bool
  alt : Option Int
  name : String
  typ : String
  country : String
  paratrooper : Bool
deriving DecidableEq

/-- `t = self._i(ln, r"T:(\d+)")`: tick value with sentinel `-1`. -/
def tVal (ln : LogLine) : Int :=
  match ln.t with
  | some n => (n : Int)
  | none => -1

/-- First pass of `parse` ("register objects"): AType:10 lines store the
player context when `ISPL:1` occurs (`player_id = pid or plid`) and
register the object under `AID`; AType:12 lines register under `ID`. -/
def registerLine (cfg : CatConfig) (st : MissionStats) (ln : LogLine) : MissionStats :=
  if ln.atype = 10 then
    let st1 :=
      if ln.ispl then
        let plid := iNat ln.plid
        let pid := iNat ln.pid
        { st with player_plid := some plid, player_pid := some pid,
                  player_id := some (pyOr pid plid),
                  player_name := some ln.name,
                  player_aircraft := some ln.typ }
      else st
    add_object st1 (mkGameObject cfg (iNat ln.aid) ln.name ln.typ ln.country)
  else if ln.atype = 12 then
    add_object st (mkGameObject cfg (iNat ln.idf) ln.name ln.typ ln.country)
  else st

/-- State of the event-collection loop: the stats plus the `destroyed`
dict `{tid: (timestamp, altitude)}`. -/
structure LoopState where
  stats : MissionStats
  destroyed : List (Int × (HMS × Option Int))
deriving DecidableEq

/-- `total = sum(h["damage"] for h in hits)` over the hits recorded so far
against `tid` (the computation duplicated by `_resolve_indirect_kill` and
the retroactive pass). -/
def totalDamage (st : MissionStats) (tid : Int) : ℚ :=
  ((st.hits.filter (fun h => h.target == tid)).map (fun h => h.damage)).sum

/-- `player = sum(h["damage"] for h in hits if h["attacker"] in
(player_pid, player_plid))`. -/
def playerDamage (st : MissionStats) (tid : Int) : ℚ :=
  (((st.hits.filter (fun h => h.target == tid)).filter (fun h =>
      st.player_pid = some h.attacker ∨ st.player_plid = some h.attacker)).map
      (fun h => h.damage)).sum

/-- `_resolve_indirect_kill`: share of damage dealt by the player's ids
among all recorded hits on the target so far; credit when the ratio is at
least 0.8, storing the destroy event's own timestamp `ts`. -/
def resolve_indirect_kill (st : MissionStats) (tid : Int) (ts : HMS) (alt : Option Int) : MissionStats :=
  if 0 < totalDamage st tid ∧ (4/5 : ℚ) ≤ playerDamage st tid / totalDamage st tid then
    add_kill (setObjAltitude st tid alt) tid ts
  else st

/-- One iteration of the event-collection loop of `parse` (the
`AType:2 / 3 / 5 / 18 / 6|7` elif chain). -/
def eventStep (ls : LoopState) (ln : LogLine) : LoopState :=
  let t := tVal ln
  let ts := mission_time_to_hhmmss t
  if ln.atype = 2 then
    let st := ls.stats
    let a := iInt ln.aid
    let tgt := iInt ln.tid
    let dmg := fD ln.dmg
    let st := add_hit st a tgt dmg ts
    let st :=
      if st.player_plid = some tgt ∧ 0 < dmg then
        let attacker_name :=
          match alookup st.objects a with
          | some o => o.typ
          | none => "Unknown (ID:" ++ toString a ++ ")"
        { st with total_aircraft_damage := st.total_aircraft_damage + dmg,
                  events := st.events ++ [damageEvent ts attacker_name (.aircraft (dmg * 100)) ln.alt t] }
      else st
    let st :=
      if (st.player_pid = some tgt ∨ st.player_id = some tgt) ∧ 0 < dmg then
        let attacker_name :=
          match alookup st.objects a with
          | some o => o.typ
          | none => "Unknown (ID:" ++ toString a ++ ")"
        { st with total_pilot_damage := st.total_pilot_damage + dmg,
                  events := st.events ++ [damageEvent ts attacker_name (.pilot (dmg * 100)) ln.alt t] }
      else st
    let st := if 1/100 < st.total_pilot_damage then { st with wounded := true } else st
    { ls with stats := st }
  else if ln.atype = 3 then
    let st := ls.stats
    let a := iInt ln.aid
    let tgt := iInt ln.tid
    let ds := aupsert ls.destroyed tgt (ts, ln.alt)
    if (alookup st.objects tgt).any (fun o => o.category == "Excluded") then
      { stats := st, destroyed := ds }
    else if st.player_pid = some a ∨ st.player_plid = some a then
      { stats := add_kill (setObjAltitude st tgt ln.alt) tgt ts, destroyed := ds }
    else if a = -1 then
      { stats := resolve_indirect_kill st tgt ts ln.alt, destroyed := ds }
    else
      { stats := st, destroyed := ds }
  else if ln.atype = 5 then
    let st := ls.stats
    let pid := iInt ln.pid
    if (st.player_pid = some pid ∨ st.player_plid = some pid) ∧ ¬ truthy st.takeoff_time then
      { ls with stats :=
          { st with takeoff_time := some t,
                    events := st.events ++ [takeoffEvent ts ln.alt t] } }
    else ls
  else if ln.atype = 18 then
    let st := ls.stats
    let botid := iInt ln.botid
    let parentid := iInt ln.parentid
    if truthy st.player_pid ∧ truthy st.player_plid ∧
        st.player_pid = some botid ∧ st.player_plid = some parentid then
      { ls with stats := { st with pilot_separation_time := some t } }
    else ls
  else if ln.atype = 6 ∨ ln.atype = 7 then
    let st := ls.stats
    let pid := iInt ln.pid
    if (st.player_pid = some pid ∨ st.player_plid = some pid) ∧ ¬ truthy st.landing_time then
      let st := { st with landing_time := some t }
      let st :=
        if truthy st.pilot_separation_time then
          let sep := (st.pilot_separation_time).getD 0
          if 2000 < t - sep then
            { st with crashed := false, landed := false,
                      final_state := if st.wounded then "Bailout (Wounded)" else "Bailout",
                      events := st.events ++ [outcomeEvent ts ("Bailout") ln.alt t] }
          else if ln.atype = 7 then
            { st with crashed := true,
                      final_state := if st.wounded then "Crashed (Wounded)" else "Crashed",
                      events := st.events ++ [outcomeEvent ts ("Crash") ln.alt t] }
          else
            { st with landed := true,
                      final_state := if st.wounded then "Landed (Wounded)" else "Landed",
                      events := st.events ++ [outcomeEvent ts ("Landing") ln.alt t] }
        else if ln.atype = 7 then
          { st with crashed := true,
                    final_state := if st.wounded then "Crashed (Wounded)" else "Crashed",
                    events := st.events ++ [outcomeEvent ts ("Crash") ln.alt t] }
        else
          { st with landed := true,
                    final_state := if st.wounded then "Landed (Wounded)" else "Landed",
                    events := st.events ++ [outcomeEvent ts ("Landing") ln.alt t] }
      { ls with stats := st }
    else ls
  else ls

/-- One iteration of the retroactive proportional-kill pass over the
`destroyed` dict: when recorded hits exist, the full-log player share is
at least 0.8 and the target is not yet in `kills`, credit it with the LAST
recorded hit's timestamp (`hits[-1]["time"]`), not the destroy time. -/
def retroStep (st : MissionStats) (entry : Int × (HMS × Option Int)) : MissionStats :=
  match (st.hits.filter (fun h => h.target == entry.1)).getLast? with
  | none => st
  | some lastHit =>
    if 0 < totalDamage st entry.1 ∧
        (4/5 : ℚ) ≤ playerDamage st entry.1 / totalDamage st entry.1 then
      if st.kills.all (fun k => k ≠ entry.1) then
        add_kill (setObjAltitude st entry.1 entry.2.2) entry.1 lastHit.time
      else st
    else st

/-- The bail-out fallback: when a `Paratrooper` AType:13 line occurs and
neither crash nor landing was recorded, overwrite the final state. -/
def parachutePhase (st : MissionStats) (lines : List LogLine) : MissionStats :=
  if (lines.any (fun l => l.atype == 13 && l.paratrooper)) ∧ ¬ st.crashed ∧ ¬ st.landed then
    { st with final_state := if st.wounded then "Bailed Out (Wounded)" else "Bailed Out" }
  else st

/-- `e.get('time_raw', 0)` on events of `MissionStats.events` (which only
ever carry integer ticks there). -/
def timeRawD (e : Event) : Int :=
  match e.time_raw with
  | some (.ticks v) => v
  | _ => 0

/-- The flight-duration phase of `parse`.  When a takeoff is recorded but
no landing, the code computes the latest event tick and, if it exceeds the
takeoff tick, calls `self._format_time(end_time)` — a method that does NOT
exist anywhere in the class, so Python raises `AttributeError` and `parse`
fails; modelled as `Except.error ()`. -/
def finishPhase (st : MissionStats) : Except Unit MissionStats :=
  if truthy st.takeoff_time then
    let takeoff := (st.takeoff_time).getD 0
    if ¬ truthy st.landing_time ∧ st.events ≠ [] then
      let end_time := ((st.events.map timeRawD).max?).getD 0
      if takeoff < end_time then
        Except.error ()
      else
        if end_time ≠ 0 then
          Except.ok { st with flight_duration := some (mission_time_to_hhmmss (end_time - takeoff)) }
        else Except.ok st
    else
      match st.landing_time with
      | some lt =>
        if lt ≠ 0 then
          Except.ok { st with flight_duration := some (mission_time_to_hhmmss (lt - (st.takeoff_time).getD 0)) }
        else Except.ok st
      | none => Except.ok st
  else Except.ok st

/-- `MissionDebriefParser.parse` up to (and including) the retroactive
kill pass and the parachute fallback — everything before the duration
phase, which is the only part that can raise. -/
def runStats (cfg : CatConfig) (lines : List LogLine) : MissionStats :=
  let st0 := lines.foldl (registerLine cfg) initStats
  let ls := lines.foldl eventStep ⟨st0, []⟩
  let st := ls.destroyed.foldl retroStep ls.stats
  parachutePhase st lines

/-- `MissionDebriefParser.parse`, whole method. -/
def parse (cfg : CatConfig) (lines : List LogLine) : Except Unit MissionStats :=
  finishPhase (runStats cfg lines)

/-- The BotPilot/BotGunner filter `valid` inside `to_json`. -/
def validKill (o : GameObject) : Bool :=
  ¬ (strContains (toLowerStr o.typ) ("botpilot") || strContains (toLowerStr o.typ) ("botgunner"))

/-- `kills = [k for k in self.stats.kills if valid(k)]`, reading each
credited id back through the object registry (Python aliasing). -/
def killsOf (st : MissionStats) : List GameObject :=
  (st.kills.filterMap (fun tid => alookup st.objects tid)).filter validKill

/-- The Kill events appended to the timeline by `to_json` (`if
k.time_of_kill:` — a set timestamp string is always truthy). -/
def killEvents (st : MissionStats) : List Event :=
  (killsOf st).filterMap (fun k =>
    match k.time_of_kill with
    | some ts => some (killEvent ts k.typ k.category k.altitude)
    | none => none)

/-- An aggregation bucket of `damage_by_time`, keyed by the "HH:MM" minute. -/
structure Bucket where
  time : HMS
  time_raw : Option TimeRawVal
  aircraft_damage : ℚ
  pilot_damage : ℚ
  attacker : Option String
  altitude : Option Int
deriving DecidableEq

/-- Minute key `':'.join(full_time.split(':')[:2])` of an event time. -/
def dmgKey (e : Event) : Int × Int := (e.time.1, e.time.2.1)

/-- Fresh bucket created on a minute key's first event. -/
def bucketInit (e : Event) : Bucket :=
  ⟨e.time, e.time_raw, 0, 0, e.target, e.altitude⟩

/-- Accumulate one Damage-Taken event's damage string into its bucket
(the `"aircraft" in damage_str` / `"pilot" in damage_str` branches; an
absent damage string matches neither). -/
def bucketAdd (b : Bucket) (d : Option DmgStr) : Bucket :=
  match d with
  | some (.both a p) =>
      { b with aircraft_damage := b.aircraft_damage + a, pilot_damage := b.pilot_damage + p }
  | some (.aircraft v) => { b with aircraft_damage := b.aircraft_damage + v }
  | some (.pilot v) => { b with pilot_damage := b.pilot_damage + v }
  | none => b

/-- One iteration of the aggregation loop in `to_json`: Damage-Taken
events are folded into `damage_by_time`, everything else is appended to
`non_damage_events`. -/
def splitStep (acc : List Event × List ((Int × Int) × Bucket)) (e : Event) :
    List Event × List ((Int × Int) × Bucket) :=
  if e.etype = "Damage Taken" then
    let k := dmgKey e
    let bs := acc.2
    let bs := if (alookup bs k).isSome then bs else bs ++ [(k, bucketInit e)]
    let bs :=
      match alookup bs k with
      | some b => aupsert bs k (bucketAdd b e.damage)
      | none => bs
    (acc.1, bs)
  else (acc.1 ++ [e], acc.2)

/-- The aggregation loop of `to_json`: split the merged event list into
`(non_damage_events, damage_by_time)`. -/
def splitDamage (evs : List Event) : List Event × List ((Int × Int) × Bucket) :=
  evs.foldl splitStep ([], [])

/-- Convert one aggregated bucket back into a Damage-Taken event (the
three `> 0` branches; a bucket with no positive damage emits nothing).
The `"time_raw"` key receives the minute KEY here, not a tick. -/
def bucketEvent (k : Int × Int) (b : Bucket) : Option Event :=
  if 0 < b.aircraft_damage ∧ 0 < b.pilot_damage then
    some ⟨b.time, "Damage Taken", b.attacker, some (.both b.aircraft_damage b.pilot_damage),
          b.altitude, some (.minuteKey k.1 k.2), none, false, none⟩
  else if 0 < b.aircraft_damage then
    some ⟨b.time, "Damage Taken", b.attacker, some (.aircraft b.aircraft_damage),
          b.altitude, some (.minuteKey k.1 k.2), none, false, none⟩
  else if 0 < b.pilot_damage then
    some ⟨b.time, "Damage Taken", b.attacker, some (.pilot b.pilot_damage),
          b.altitude, some (.minuteKey k.1 k.2), none, false, none⟩
  else none

/-- All aggregated damage events, in dict iteration (= insertion) order. -/
def bucketsToEvents (bs : List ((Int × Int) × Bucket)) : List Event :=
  bs.filterMap (fun p => bucketEvent p.1 p.2)

/-- One event of the `takeoff_alt` / `landing_alt` / `landing_time` scan
at the top of `_detect_landing_damage` (each assignment keeps the LAST
matching event). -/
def scanStep (acc : Option Int × Option Int × Option HMS) (e : Event) :
    Option Int × Option Int × Option HMS :=
  let acc1 :=
    if e.etype = "Takeoff" ∧ e.altitude ≠ none then
      (e.altitude, acc.2.1, acc.2.2)
    else acc
  if e.etype = "Landing" ∨ e.etype = "Crash" then
    (acc1.1, (if e.altitude ≠ none then e.altitude else acc1.2.1), some e.time)
  else acc1

/-- The whole scan. -/
def detectScan (evs : List Event) : Option Int × Option Int × Option HMS :=
  evs.foldl scanStep (none, none, none)

/-- `airfield_alt`: average of takeoff and landing altitudes when both
known, else whichever is known. -/
def airfieldAlt (ta la : Option Int) : Option ℚ :=
  match ta, la with
  | some a, some b => some (((a : ℚ) + (b : ℚ)) / 2)
  | some a, none => some (a : ℚ)
  | none, some b => some (b : ℚ)
  | none, none => none

/-- `last_kill_time`: time of the last Kill event in list order. -/
def lastKillTime (evs : List Event) : Option HMS :=
  (evs.reverse.find? (fun e => e.etype == "Kill")).map (fun e => e.time)

/-- Parameters the per-event reclassification test reads. -/
structure DetectParams where
  player_aircraft : Option String
  landing_time : HMS
  last_kill : Option HMS
  airfield_alt : Option ℚ
deriving DecidableEq

/-- `time_since_kill`: `999999` when no kill exists, else the seconds from
the last kill to the damage event. -/
def timeSinceKill (lk : Option HMS) (t : HMS) : Int :=
  match lk with
  | none => 999999
  | some k => time_diff_seconds k t

/-- Criterion 4 test: only when both the airfield elevation and the event
altitude are known, require relative altitude BELOW 150 m (one-sided:
`damage_alt - airfield_alt < 150`); otherwise pass. -/
def altCrit (af : Option ℚ) (da : Option Int) : Bool :=
  match af, da with
  | some a, some d => decide ((d : ℚ) - a < 150)
  | _, _ => true

/-- The `is_landing_dmg` decision for one Damage-Taken event: self-sourced,
0 < time-to-landing < 60 s, more than 60 s past the last kill, and the
altitude criterion. -/
def isLandingDmg (p : DetectParams) (e : Event) : Prop :=
  e.target = p.player_aircraft ∧
  (0 < time_diff_seconds e.time p.landing_time ∧ time_diff_seconds e.time p.landing_time < 60) ∧
  60 < timeSinceKill p.last_kill e.time ∧
  altCrit p.airfield_alt e.altitude = true

instance (p : DetectParams) (e : Event) : Decidable (isLandingDmg p e) := by
  unfold isLandingDmg
  exact inferInstance

/-- Relabel a reclassified event (`evt_copy['type'] = 'Landing Damage'`,
keeping the original target). -/
def markLandingDmg (e : Event) : Event :=
  { e with etype := "Landing Damage", original_target := e.target }

/-- `evt_copy['hard_landing'] = True`. -/
def markHard (e : Event) : Event := { e with hard_landing := true }

/-- The per-event loop of `_detect_landing_damage`, with the running
`has_hard_landing` flag; returns the rebuilt list and the final flag. -/
def detectLoop (p : DetectParams) (hard : Bool) : List Event → List Event × Bool
  | [] => ([], hard)
  | e :: rest =>
    if e.etype = "Damage Taken" then
      if isLandingDmg p e then
        let r := detectLoop p true rest
        (markLandingDmg e :: r.1, r.2)
      else
        let r := detectLoop p hard rest
        (e :: r.1, r.2)
    else
      if (e.etype = "Landing" ∨ e.etype = "Crash") ∧ hard then
        let r := detectLoop p hard rest
        (markHard e :: r.1, r.2)
      else
        let r := detectLoop p hard rest
        (e :: r.1, r.2)

/-- `_detect_landing_damage(events, data)`: returns the modified events,
the `has_hard_landing` flag, and the (possibly upgraded) final state. -/
def detect_landing_damage (pa : Option String) (final_state : String) (evs : List Event) :
    List Event × Bool × String :=
  let scan := detectScan evs
  match scan.2.2 with
  | none => (evs, false, final_state)
  | some lt =>
    let p : DetectParams := ⟨pa, lt, lastKillTime evs, airfieldAlt scan.1 scan.2.1⟩
    let r := detectLoop p false evs
    (r.1, r.2, if r.2 ∧ final_state = "Landed" then "Landed (Hard Landing)" else final_state)

/-- `_time_key`: seconds of an event's time triple (the string is always
a well-formed three-component time here). -/
def timeKey (e : Event) : Int := hmsSecs e.time

/-- Sort-key comparison used by the final `non_damage_events.sort`. -/
def evLE (a b : Event) : Prop := timeKey a ≤ timeKey b

instance : DecidableRel evLE := fun a b => inferInstanceAs (Decidable (timeKey a ≤ timeKey b))

instance : IsTotal Event evLE := ⟨fun a b => le_total (timeKey a) (timeKey b)⟩

instance : IsTrans Event evLE := ⟨fun _ _ _ h1 h2 => le_trans h1 h2⟩

/-- Python's `list.sort(key=_time_key)` is a stable sort by `timeKey`;
stable sorting is algorithm-independent, rendered as insertion sort. -/
def sortEvents (evs : List Event) : List Event := List.insertionSort evLE evs

/-- Timeline assembly from a fixed non-damage part and a bucket list:
append the aggregated damage events, run the landing-damage pass, sort.
Returns the ordered timeline and the final-state label. -/
def assembleWith (pa : Option String) (fs : String) (nd : List Event)
    (bs : List ((Int × Int) × Bucket)) : List Event × String :=
  let nd2 := nd ++ bucketsToEvents bs
  let r := detect_landing_damage pa fs nd2
  (sortEvents r.1, r.2.2)

/-- The event-timeline portion of `to_json`: merge stored events with Kill
events, aggregate damage per minute, reclassify landing damage, sort. -/
def assembleTimeline (st : MissionStats) : List Event × String :=
  let evs := st.events ++ killEvents st
  let sp := splitDamage evs
  assembleWith st.player_aircraft st.final_state sp.1 sp.2

deriving instance DecidableEq for Except

/-- Abstract terminal outcome, for reading `final_state` labels. -/
inductive Outcome where
  | Flying
  | Landed
  | Crashed
  | BailedOut
deriving DecidableEq

/-- Map a `final_state` display label to the abstract outcome. -/
def outcomeOf (s : String) : Outcome :=
  if s ∈ ["Bailout", "Bailout (Wounded)", "Bailed Out", "Bailed Out (Wounded)"] then .BailedOut
  else if s ∈ ["Crashed", "Crashed (Wounded)"] then .Crashed
  else if s ∈ ["Landed", "Landed (Wounded)", "Landed (Hard Landing)"] then .Landed
  else .Flying

/-- Recorded kill timestamp of a target, read through the registry. -/
def killTime (st : MissionStats) (tid : Int) : Option HMS :=
  (alookup st.objects tid).bind (fun o => o.time_of_kill)

/-- A log line with every field absent. -/
def line0 : LogLine :=
  ⟨0, none, none, none, none, none, none, none, none, none, false, none, "", "", "", false⟩

/-- Empty category configuration (everything classifies as Unknown). -/
def cfg0 : CatConfig := ⟨[], []⟩

/-- Player spawn: `ISPL:1 PID:1 PLID:2 AID:2 TYPE:il2`. -/
def spawnLine : LogLine :=
  { line0 with atype := 10, ispl := true, pid := some 1, plid := some 2,
               aid := some 2, name := "P", typ := "il2" }

/-- Generic object spawn `AType:12 ID:5 TYPE:tank`. -/
def tankLine : LogLine := { line0 with atype := 12, idf := some 5, typ := "tank" }

/-- Hit by the player pilot (id 1) on target 5 for 0.8 at tick 100. -/
def c1Hit1 : LogLine :=
  { line0 with atype := 2, t := some 100, aid := some 1, tid := some 5, dmg := some (4/5) }

/-- Hit by another attacker (id 3) on target 5 for 0.2 at tick 200. -/
def c1Hit2 : LogLine :=
  { line0 with atype := 2, t := some 200, aid := some 3, tid := some 5, dmg := some (1/5) }

/-- Destroy event with the sentinel attacker `AID:-1` at tick 6000. -/
def c1Destroy : LogLine :=
  { line0 with atype := 3, t := some 6000, aid := some (-1), tid := some 5 }

/-- C1 counterexample input: hits `{(controlled, 0.8), (other, 0.2)}` on
target 5 followed by an `AID:-1` destroy event much later. -/
def c1Input : List LogLine := [spawnLine, tankLine, c1Hit1, c1Hit2, c1Destroy]

/-- C1 counterexample: on `c1Input` the damage ratio is exactly 0.8, so
the claim demands the kill be credited after the full log with the LAST
HIT's timestamp (tick 200, i.e. 00:00:04).  The code instead resolves the
`AID:-1` destroy event immediately via `_resolve_indirect_kill` and stores
the DESTROY event's own timestamp (tick 6000, i.e. 00:02:00), refuting the
claim's timestamp clause. -/
theorem c1_counterexample :
    (runStats cfg0 c1Input).kills = [5] ∧
    killTime (runStats cfg0 c1Input) 5 = some (mission_time_to_hhmmss 6000) ∧
    ((runStats cfg0 c1Input).hits.filter (fun h => h.target == 5)).getLast?.map
      (fun h => h.time) = some (mission_time_to_hhmmss 200) ∧
    mission_time_to_hhmmss 6000 ≠ mission_time_to_hhmmss 200 := by
  decide

/-- Pilot separation of the controlled pilot recorded at tick 0. -/
def c2Sep : LogLine :=
  { line0 with atype := 18, t := some 0, botid := some 1, parentid := some 2 }

/-- Landing-marker terminal event (AType:6) at tick 3000. -/
def c2Land : LogLine := { line0 with atype := 6, t := some 3000, pid := some 1 }

/-- C2 counterexample input: separation recorded at tick 0, landing marker
at tick 3000. -/
def c2Input : List LogLine := [spawnLine, c2Sep, c2Land]

/-- C2 counterexample: a pilot-separation timestamp EXISTS (tick 0) and
the difference 3000 − 0 exceeds 2000, so the claim demands `BailedOut`;
but `if self.stats.pilot_separation_time:` treats the stored 0 as absent
and the code classifies the flight as `Landed`. -/
theorem c2_counterexample :
    (runStats cfg0 c2Input).pilot_separation_time = some 0 ∧
    2000 < tVal c2Land - 0 ∧
    outcomeOf (runStats cfg0 c2Input).final_state = Outcome.Landed ∧
    Outcome.Landed ≠ Outcome.BailedOut := by
  decide

/-- Takeoff of the controlled pilot at tick 1000. -/
def c4Takeoff : LogLine := { line0 with atype := 5, t := some 1000, pid := some 1 }

/-- Damage to the player's aircraft (id 2) at tick 6000, producing a later
timeline event with no landing afterwards. -/
def c4Dmg : LogLine :=
  { line0 with atype := 2, t := some 6000, aid := some 3, tid := some 2, dmg := some (1/10) }

/-- C4 failing input: a recorded takeoff, a later event, and no terminal
landing/crash event. -/
def c4Input : List LogLine := [spawnLine, c4Takeoff, c4Dmg]

/-- C4: on any input reaching the Mission-End synthesis branch (takeoff
recorded, no landing, a later event), `parse` evaluates
`self._format_time(end_time)` — a method that is defined nowhere in the
class — so the run dies with `AttributeError` instead of synthesizing the
`MissionEnd` event and computing the duration. -/
theorem c4_attribute_error : parse cfg0 c4Input = Except.error () := by
  decide

/-- Configuration placing the exact keyword "il2" in category "Air". -/
def cfgC5 : CatConfig := ⟨[("Air", ["il2"])], []⟩

/-- Classification as the claim describes it: lower-case and trim, STRIP
the static-object marker and any trailing bracketed coordinate suffix,
then exclusion-substring / exact-category matching.  (Spec-side
definition, for comparison against `classify_type`.) -/
def claimClassify (cfg : CatConfig) (type_ : String) : String :=
  let s := trimStr (toLowerStr type_)
  let s := if startsWithStr s ("static_") then splitHead (⟨s.data.drop 7⟩ : String) ("[") else s
  if cfg.exclude.any (fun x => strContains s x) then "Excluded"
  else
    match cfg.categories.find? (fun c => c.2.any (fun k => toLowerStr k == s)) with
    | some c => c.1
    | none => "Unknown"

/-- C5 counterexample: for the tag `"static_il2[9337,0]"` the claim's
marker-stripping classification yields "Air" (stripped tag "il2" is an
exact keyword), but `classify_type` keeps the `static_` marker and matches
`"static_il2"`, yielding "Unknown". -/
theorem c5_counterexample :
    claimClassify cfgC5 "static_il2[9337,0]" = "Air" ∧
    classify_type cfgC5 "static_il2[9337,0]" = "Unknown" ∧
    ("Air" : String) ≠ "Unknown" := by
  decide

/-- Reading the Bailout labels. -/
theorem outcomeOf_bailout (w : Bool) :
    outcomeOf (if w then "Bailout (Wounded)" else "Bailout") = Outcome.BailedOut := by
  cases w <;> rfl

/-- Reading the Crashed labels. -/
theorem outcomeOf_crashed (w : Bool) :
    outcomeOf (if w then "Crashed (Wounded)" else "Crashed") = Outcome.Crashed := by
  cases w <;> rfl

/-- Reading the Landed labels. -/
theorem outcomeOf_landed (w : Bool) :
    outcomeOf (if w then "Landed (Wounded)" else "Landed") = Outcome.Landed := by
  cases w <;> rfl

/-- C2 (amended): on the first landing/crash event for the controlled
pilot, with a NONZERO recorded separation tick the outcome is BailedOut
when the tick difference exceeds 2000, Crashed within 2000 with the crash
discriminant (AType:7), Landed within 2000 with the landing discriminant
(AType:6); with no separation — or one recorded at tick 0, which the
truthiness test treats as absent — crash yields Crashed, otherwise Landed.
The event records the landing tick, and once a truthy landing tick is
stored every later landing/crash event leaves the state untouched. -/
theorem c2_terminal_outcome :
    (∀ (ls : LoopState) (ln : LogLine),
      (ln.atype = 6 ∨ ln.atype = 7) →
      (ls.stats.player_pid = some (iInt ln.pid) ∨ ls.stats.player_plid = some (iInt ln.pid)) →
      truthy ls.stats.landing_time = false →
      (eventStep ls ln).stats.landing_time = some (tVal ln) ∧
      (∀ s : Int, ls.stats.pilot_separation_time = some s → s ≠ 0 →
        (2000 < tVal ln - s → outcomeOf (eventStep ls ln).stats.final_state = Outcome.BailedOut) ∧
        (tVal ln - s ≤ 2000 → ln.atype = 7 → outcomeOf (eventStep ls ln).stats.final_state = Outcome.Crashed) ∧
        (tVal ln - s ≤ 2000 → ln.atype = 6 → outcomeOf (eventStep ls ln).stats.final_state = Outcome.Landed)) ∧
      (truthy ls.stats.pilot_separation_time = false →
        (ln.atype = 7 → outcomeOf (eventStep ls ln).stats.final_state = Outcome.Crashed) ∧
        (ln.atype = 6 → outcomeOf (eventStep ls ln).stats.final_state = Outcome.Landed))) ∧
    (∀ (ls : LoopState) (ln : LogLine),
      (ln.atype = 6 ∨ ln.atype = 7) → truthy ls.stats.landing_time = true →
      eventStep ls ln = ls) := by
  constructor
  · intro ls ln h67 hpid hland
    have h2 : ¬ ln.atype = 2 := by rcases h67 with h | h <;> omega
    have h3 : ¬ ln.atype = 3 := by rcases h67 with h | h <;> omega
    have h5 : ¬ ln.atype = 5 := by rcases h67 with h | h <;> omega
    have h18 : ¬ ln.atype = 18 := by rcases h67 with h | h <;> omega
    have hguard : (ls.stats.player_pid = some (iInt ln.pid) ∨
        ls.stats.player_plid = some (iInt ln.pid)) ∧ ¬ truthy ls.stats.landing_time := by
      exact ⟨hpid, by simp [hland]⟩
    simp only [eventStep, if_neg h2, if_neg h3, if_neg h5, if_neg h18, if_pos h67, if_pos hguard]
    refine ⟨?_, ?_, ?_⟩
    · split
      · split
        · rfl
        · split <;> rfl
      · split <;> rfl
    · intro s hsep hs0
      have htru : truthy ({ ls.stats with landing_time := some (tVal ln) }).pilot_separation_time = true := by
        simp [truthy, hsep, hs0]
      refine ⟨?_, ?_, ?_⟩
      · intro hdelta
        rw [if_pos htru, hsep]
        simp only [Option.getD_some]
        rw [if_pos hdelta]
        exact outcomeOf_bailout _
      · intro hdelta h7
        rw [if_pos htru, hsep]
        simp only [Option.getD_some]
        rw [if_neg (by omega : ¬ 2000 < tVal ln - s), if_pos h7]
        exact outcomeOf_crashed _
      · intro hdelta h6
        have h7 : ¬ ln.atype = 7 := by omega
        rw [if_pos htru, hsep]
        simp only [Option.getD_some]
        rw [if_neg (by omega : ¬ 2000 < tVal ln - s), if_neg h7]
        exact outcomeOf_landed _
    · intro hnsep
      have htru : ¬ truthy ({ ls.stats with landing_time := some (tVal ln) }).pilot_separation_time = true := by
        simp [hnsep]
      refine ⟨?_, ?_⟩
      · intro h7
        rw [if_neg htru, if_pos h7]
        exact outcomeOf_crashed _
      · intro h6
        have h7 : ¬ ln.atype = 7 := by omega
        rw [if_neg htru, if_neg h7]
        exact outcomeOf_landed _
  · intro ls ln h67 hland
    have h2 : ¬ ln.atype = 2 := by rcases h67 with h | h <;> omega
    have h3 : ¬ ln.atype = 3 := by rcases h67 with h | h <;> omega
    have h5 : ¬ ln.atype = 5 := by rcases h67 with h | h <;> omega
    have h18 : ¬ ln.atype = 18 := by rcases h67 with h | h <;> omega
    have hguard : ¬ ((ls.stats.player_pid = some (iInt ln.pid) ∨
        ls.stats.player_plid = some (iInt ln.pid)) ∧ ¬ truthy ls.stats.landing_time) := by
      simp [hland]
    simp only [eventStep, if_neg h2, if_neg h3, if_neg h5, if_neg h18, if_pos h67, if_neg hguard]

/-- Loop state realizing the spec's own scenario: separation at tick
50000, player pilot id 1 / aircraft id 2, no landing yet. -/
def c2WitState : LoopState :=
  ⟨{ initStats with player_pid := some 1, player_plid := some 2,
                    pilot_separation_time := some 50000 }, []⟩

/-- Landing-marker line at tick 53000 for pilot 1. -/
def c2WitLn : LogLine := { line0 with atype := 6, t := some 53000, pid := some 1 }

/-- Witness for `c2_terminal_outcome`: separation at 50000 and landing
marker at 53000 (difference 3000 > 2000) classify as BailedOut. -/
theorem c2_witness :
    outcomeOf (eventStep c2WitState c2WitLn).stats.final_state = Outcome.BailedOut :=
  (((c2_terminal_outcome.1 c2WitState c2WitLn (Or.inl rfl) (Or.inl (by decide))
      (by decide)).2.1 50000 rfl (by decide)).1 (by decide))

/-- `aupsert` at a non-matching head passes through the head. -/
theorem aupsert_cons_ne {α β : Type} [BEq α] (p : α × β) (rest : List (α × β))
    (k : α) (v : β) (hp : (p.1 == k) = false) :
    aupsert (p :: rest) k v = p :: aupsert rest k v := by
  by_cases hs : (rest.find? (fun q => q.1 == k)).isSome <;>
    simp [aupsert, List.find?_cons, hp, hs]

/-- `aupsert` at a matching head replaces it. -/
theorem aupsert_cons_eq {α β : Type} [BEq α] (p : α × β) (rest : List (α × β))
    (k : α) (v : β) (hp : (p.1 == k) = true) :
    aupsert (p :: rest) k v =
      (k, v) :: rest.map (fun q => if q.1 == k then (k, v) else q) := by
  simp [aupsert, List.find?_cons, hp]

/-- Rewriting the entries stored under `k` does not change lookups at
another key. -/
theorem alookup_mapUpd_ne {α β : Type} [BEq α] [LawfulBEq α]
    (rest : List (α × β)) (k k' : α) (v : β) (h : ¬ k' = k) :
    alookup (rest.map (fun q => if q.1 == k then (k, v) else q)) k' = alookup rest k' := by
  induction rest with
  | nil => rfl
  | cons q tl ih =>
    by_cases hq : (q.1 == k) = true
    · have hqk : q.1 = k := by simpa using hq
      have h1 : (k == k') = false := by
        simp only [beq_eq_false_iff_ne]
        exact fun hh => h hh.symm
      have h2 : (q.1 == k') = false := by
        simp only [beq_eq_false_iff_ne, hqk]
        exact fun hh => h hh.symm
      simpa [alookup, List.find?_cons, hq, h1, h2] using ih
    · by_cases hq' : (q.1 == k') = true
      · simp [alookup, List.find?_cons, hq, hq']
      · simpa [alookup, List.find?_cons, hq, hq',
               Bool.not_eq_true] using ih

/-- Lookup after storing under the same key. -/
theorem alookup_aupsert_eq {α β : Type} [BEq α] [LawfulBEq α]
    (l : List (α × β)) (k : α) (v : β) : alookup (aupsert l k v) k = some v := by
  induction l with
  | nil => simp [aupsert, alookup, List.find?]
  | cons p rest ih =>
    by_cases hp : (p.1 == k) = true
    · rw [aupsert_cons_eq p rest k v hp]
      simp [alookup, List.find?_cons]
    · rw [aupsert_cons_ne p rest k v (by simpa using hp)]
      simpa [alookup, List.find?_cons, hp] using ih

/-- Lookup under a different key is unchanged by a store. -/
theorem alookup_aupsert_ne {α β : Type} [BEq α] [LawfulBEq α]
    (l : List (α × β)) (k k' : α) (v : β) (h : ¬ k' = k) :
    alookup (aupsert l k v) k' = alookup l k' := by
  induction l with
  | nil =>
    have h1 : (k == k') = false := by
      simp only [beq_eq_false_iff_ne]
      exact fun hh => h hh.symm
    simp [aupsert, alookup, List.find?, h1]
  | cons p rest ih =>
    by_cases hp : (p.1 == k) = true
    · have hpk : p.1 = k := by simpa using hp
      have h1 : (k == k') = false := by
        simp only [beq_eq_false_iff_ne]
        exact fun hh => h hh.symm
      have h2 : (p.1 == k') = false := by
        simp only [beq_eq_false_iff_ne, hpk]
        exact fun hh => h hh.symm
      rw [aupsert_cons_eq p rest k v hp]
      simp only [alookup, List.find?_cons, h1, h2]
      exact alookup_mapUpd_ne rest k k' v h
    · rw [aupsert_cons_ne p rest k v (by simpa using hp)]
      by_cases hp' : (p.1 == k') = true
      · simp [alookup, List.find?_cons, hp']
      · simpa [alookup, List.find?_cons, hp, hp'] using ih

/-- `setObjAltitude` only touches the object registry. -/
theorem setObjAltitude_kills (st : MissionStats) (tid : Int) (alt : Option Int) :
    (setObjAltitude st tid alt).kills = st.kills := by
  unfold setObjAltitude
  split <;> rfl

/-- `setObjAltitude` rewrites only the target's altitude. -/
theorem alookup_setObjAltitude_self (st : MissionStats) (tid : Int) (alt : Option Int) :
    alookup (setObjAltitude st tid alt).objects tid =
      (alookup st.objects tid).map (fun o =>
        match alt with
        | some a => { o with altitude := some a }
        | none => o) := by
  cases heq : alookup st.objects tid with
  | none => cases halt : alt <;> simp [setObjAltitude, heq, halt]
  | some o =>
    cases halt : alt with
    | none => simp [setObjAltitude, heq, halt]
    | some a => simp [setObjAltitude, heq, halt, alookup_aupsert_eq]

/-- `add_kill` on a registered, non-Excluded, not-yet-credited target
appends exactly that target and stamps its kill time. -/
theorem add_kill_new (st : MissionStats) (tid : Int) (ts : HMS) (o : GameObject)
    (hobj : alookup st.objects tid = some o) (hcat : ¬ o.category = "Excluded")
    (hnot : st.kills.contains tid = false) :
    (add_kill st tid ts).kills = st.kills ++ [tid] ∧
    killTime (add_kill st tid ts) tid = some ts := by
  unfold add_kill
  rw [hobj]
  simp only [if_neg hcat]
  have hmem : ¬ tid ∈ st.kills := by simpa using hnot
  constructor
  · simp [hmem]
  · unfold killTime
    simp [hmem, alookup_aupsert_eq]

/-- C5 (amended): `classify_type` lower-cases and trims the tag and, when
it starts with the static marker and has a bracket, drops only the
bracketed suffix KEEPING the marker (`classifyNorm`); any exclusion
keyword occurring as a substring forces "Excluded"; otherwise the result
is the first category whose lower-cased keyword list contains the
normalised tag as an exact member, and "Unknown" when none does — so
"flak88x" never matches a keyword "flak".  (Determinism is definitional:
`classify_type` is a pure function of its configuration and tag.) -/
theorem c5_classification :
    (∀ (cfg : CatConfig) (t x : String), x ∈ cfg.exclude →
      strContains (classifyNorm t) x = true → classify_type cfg t = "Excluded") ∧
    (∀ (cfg : CatConfig) (t : String), (∀ x ∈ cfg.exclude, strContains (classifyNorm t) x = false) →
      classify_type cfg t =
        ((cfg.categories.find? (fun c => c.2.any (fun k => toLowerStr k == classifyNorm t))).map
          (fun c => c.1)).getD "Unknown") ∧
    classify_type ⟨[("Ground", ["flak"])], []⟩ "flak88x" = "Unknown" := by
  refine ⟨?_, ?_, by decide⟩
  · intro cfg t x hx hc
    unfold classify_type
    rw [if_pos (List.any_eq_true.mpr ⟨x, hx, hc⟩)]
  · intro cfg t hall
    unfold classify_type
    rw [if_neg ?hne]
    · cases hf : cfg.categories.find? (fun c => c.2.any (fun k => toLowerStr k == classifyNorm t)) with
      | none => simp
      | some c => simp
    · intro hany
      obtain ⟨x, hx, hc⟩ := List.any_eq_true.mp hany
      rw [hall x hx] at hc
      exact Bool.false_ne_true hc

/-- Exclusion configuration used by the C5 witness. -/
def cfgC5w : CatConfig := ⟨[], ["truck"]⟩

/-- Witness for `c5_classification`: "truck" is an exclusion keyword and a
substring of the tag "truck88", so classification yields "Excluded". -/
theorem c5_witness :
    ("truck" ∈ cfgC5w.exclude ∧ strContains (classifyNorm ("truck88")) ("truck") = true) ∧
    classify_type cfgC5w "truck88" = "Excluded" :=
  ⟨⟨by decide, by decide⟩, c5_classification.1 cfgC5w "truck88" "truck" (by decide) (by decide)⟩

/-- C10: a player-flagged spawn line with no PID field stores the `_i`
sentinel `-1` as the pilot id (and, since `-1` is truthy, as `player_id`
too); thereafter a DestroyEvent with the environment sentinel attacker
`AID:-1` passes the direct membership test `a in (player_pid, player_plid)`
and is credited as a DIRECT kill with the destroy event's own timestamp —
the indirect damage-share resolver is never consulted (as the second
conclusion shows, with no recorded hits it would credit nothing). -/
theorem c10_missing_pid_direct_credit :
    (∀ (cfg : CatConfig) (st : MissionStats) (ln : LogLine),
      ln.atype = 10 → ln.ispl = true → ln.pid = none →
      (registerLine cfg st ln).player_pid = some (-1) ∧
      (registerLine cfg st ln).player_id = some (-1)) ∧
    (∀ (ls : LoopState) (ln : LogLine) (o : GameObject),
      ln.atype = 3 → ln.aid = some (-1) →
      ls.stats.player_pid = some (-1) →
      alookup ls.stats.objects (iInt ln.tid) = some o →
      ¬ o.category = "Excluded" →
      ls.stats.kills.contains (iInt ln.tid) = false →
      ls.stats.hits.filter (fun h => h.target == iInt ln.tid) = [] →
      (eventStep ls ln).stats.kills = ls.stats.kills ++ [iInt ln.tid] ∧
      killTime (eventStep ls ln).stats (iInt ln.tid) =
        some (mission_time_to_hhmmss (tVal ln)) ∧
      (resolve_indirect_kill ls.stats (iInt ln.tid)
        (mission_time_to_hhmmss (tVal ln)) ln.alt).kills = ls.stats.kills) := by
  constructor
  · intro cfg st ln h10 hispl hpid
    simp [registerLine, h10, hispl, hpid, add_object, iNat, pyOr]
  · intro ls ln o h3 haid hpid hobj hcat hnot hhits
    have h2 : ¬ ln.atype = 2 := by omega
    have hexc : ¬ ((alookup ls.stats.objects (iInt ln.tid)).any
        (fun o => o.category == "Excluded")) = true := by
      simp [hobj, hcat]
    have hdir : ls.stats.player_pid = some (iInt ln.aid) ∨
        ls.stats.player_plid = some (iInt ln.aid) := by
      left
      rw [haid, hpid]
      rfl
    have hobj' : alookup (setObjAltitude ls.stats (iInt ln.tid) ln.alt).objects (iInt ln.tid) =
        some (match ln.alt with
              | some a => { o with altitude := some a }
              | none => o) := by
      rw [alookup_setObjAltitude_self, hobj]
      cases ln.alt <;> rfl
    have hcat' : ¬ (match ln.alt with
              | some a => { o with altitude := some a }
              | none => o : GameObject).category = "Excluded" := by
      cases ln.alt <;> simpa using hcat
    have hnot' : (setObjAltitude ls.stats (iInt ln.tid) ln.alt).kills.contains (iInt ln.tid) = false := by
      rw [setObjAltitude_kills]
      exact hnot
    have hak := add_kill_new (setObjAltitude ls.stats (iInt ln.tid) ln.alt) (iInt ln.tid)
      (mission_time_to_hhmmss (tVal ln)) _ hobj' hcat' hnot'
    refine ⟨?_, ?_, ?_⟩
    · simp only [eventStep, if_neg h2, if_pos h3, if_neg hexc, if_pos hdir]
      rw [hak.1, setObjAltitude_kills]
    · simp only [eventStep, if_neg h2, if_pos h3, if_neg hexc, if_pos hdir]
      exact hak.2
    · simp [resolve_indirect_kill, totalDamage, playerDamage, hhits]

/-- Player-flagged spawn line with no PID field. -/
def c10SpawnLn : LogLine := { line0 with atype := 10, ispl := true, plid := some 7 }

/-- State with the sentinel pilot id `-1` and a registered tank (id 5). -/
def c10State : LoopState :=
  ⟨{ initStats with player_pid := some (-1),
                    objects := [(5, mkGameObject cfg0 5 "T" "tank" "")] }, []⟩

/-- Destroy event with attacker `-1` on target 5 at tick 500. -/
def c10Destroy : LogLine :=
  { line0 with atype := 3, t := some 500, aid := some (-1), tid := some 5 }

/-- Witness for `c10_missing_pid_direct_credit`: the PID-less spawn stores
pilot id `-1`, and an `AID:-1` destroy event is then credited directly. -/
theorem c10_witness :
    (registerLine cfg0 initStats c10SpawnLn).player_pid = some (-1) ∧
    (eventStep c10State c10Destroy).stats.kills = [5] :=
  ⟨(c10_missing_pid_direct_credit.1 cfg0 initStats c10SpawnLn rfl rfl rfl).1,
   by
    have h := (c10_missing_pid_direct_credit.2 c10State c10Destroy
      (mkGameObject cfg0 5 "T" "tank" "") rfl rfl rfl (by decide) (by decide)
      (by decide) (by decide)).1
    simpa using h⟩

/-- C1 (amended): an `AID:-1` DestroyEvent is resolved IMMEDIATELY at the
destroy event: when the damage ratio over the hits recorded SO FAR is at
least 0.8 the kill is credited at once, carrying the destroy event's OWN
timestamp; otherwise nothing is credited then, and the end-of-log
retroactive pass credits any still-uncredited destroyed target whose
full-log ratio is at least 0.8, that credit carrying the timestamp of the
last recorded hit against the target. -/
theorem c1_indirect_attribution :
    (∀ (st : MissionStats) (tid : Int) (ts : HMS) (alt : Option Int) (o : GameObject),
      alookup st.objects tid = some o → ¬ o.category = "Excluded" →
      st.kills.contains tid = false →
      (0 < totalDamage st tid ∧ (4/5 : ℚ) ≤ playerDamage st tid / totalDamage st tid →
        (resolve_indirect_kill st tid ts alt).kills = st.kills ++ [tid] ∧
        killTime (resolve_indirect_kill st tid ts alt) tid = some ts) ∧
      (¬ (0 < totalDamage st tid ∧ (4/5 : ℚ) ≤ playerDamage st tid / totalDamage st tid) →
        resolve_indirect_kill st tid ts alt = st)) ∧
    (∀ (st : MissionStats) (tid : Int) (kt : HMS) (alt : Option Int)
        (o : GameObject) (lastHit : HitRec),
      (st.hits.filter (fun h => h.target == tid)).getLast? = some lastHit →
      alookup st.objects tid = some o → ¬ o.category = "Excluded" →
      st.kills.contains tid = false →
      0 < totalDamage st tid → (4/5 : ℚ) ≤ playerDamage st tid / totalDamage st tid →
      (retroStep st (tid, (kt, alt))).kills = st.kills ++ [tid] ∧
      killTime (retroStep st (tid, (kt, alt))) tid = some lastHit.time) := by
  constructor
  · intro st tid ts alt o hobj hcat hnot
    have hobj2 : ∃ o2 : GameObject,
        alookup (setObjAltitude st tid alt).objects tid = some o2 ∧
        ¬ o2.category = "Excluded" := by
      rw [alookup_setObjAltitude_self, hobj]
      cases alt with
      | none => exact ⟨o, rfl, hcat⟩
      | some a => exact ⟨{ o with altitude := some a }, rfl, by simpa using hcat⟩
    obtain ⟨o2, hobj', hcat'⟩ := hobj2
    have hnot' : (setObjAltitude st tid alt).kills.contains tid = false := by
      rw [setObjAltitude_kills]
      exact hnot
    have hak := add_kill_new (setObjAltitude st tid alt) tid ts o2 hobj' hcat' hnot'
    constructor
    · intro hcond
      unfold resolve_indirect_kill
      rw [if_pos hcond]
      exact ⟨by rw [hak.1, setObjAltitude_kills], hak.2⟩
    · intro hcond
      unfold resolve_indirect_kill
      rw [if_neg hcond]
  · intro st tid kt alt o lastHit hlast hobj hcat hnot htot hratio
    have hobj2 : ∃ o2 : GameObject,
        alookup (setObjAltitude st tid alt).objects tid = some o2 ∧
        ¬ o2.category = "Excluded" := by
      rw [alookup_setObjAltitude_self, hobj]
      cases alt with
      | none => exact ⟨o, rfl, hcat⟩
      | some a => exact ⟨{ o with altitude := some a }, rfl, by simpa using hcat⟩
    obtain ⟨o2, hobj', hcat'⟩ := hobj2
    have hnot' : (setObjAltitude st tid alt).kills.contains tid = false := by
      rw [setObjAltitude_kills]
      exact hnot
    have hak := add_kill_new (setObjAltitude st tid alt) tid lastHit.time o2 hobj' hcat' hnot'
    have hall : st.kills.all (fun k => decide (k ≠ tid)) = true := by
      rw [List.all_eq_true]
      intro k hk
      simp only [decide_eq_true_eq]
      intro hkt
      rw [hkt] at hk
      have hcont : st.kills.contains tid = true := by
        rw [List.contains_iff_exists_mem_beq]
        exact ⟨tid, hk, by simp⟩
      rw [hnot] at hcont
      exact Bool.false_ne_true hcont
    unfold retroStep
    rw [hlast]
    simp only [if_pos (And.intro htot hratio), hall, if_true]
    exact ⟨by rw [hak.1, setObjAltitude_kills], hak.2⟩

/-- Stats with the C1 scenario's hits `{(controlled, 0.8), (other, 0.2)}`
already recorded against registered target 5. -/
def c1WitState : MissionStats :=
  { initStats with player_pid := some 1, player_plid := some 2,
                   objects := [(5, mkGameObject cfg0 5 "T" "tank" "")],
                   hits := [⟨1, 5, 4/5, (0, 0, 2)⟩, ⟨3, 5, 1/5, (0, 0, 4)⟩] }

/-- Witness for `c1_indirect_attribution`: at ratio exactly 0.8 the
immediate resolver credits with the destroy timestamp 00:02:00, and the
retroactive step credits with the last hit's timestamp 00:00:04. -/
theorem c1_witness :
    (resolve_indirect_kill c1WitState 5 (0, 2, 0) none).kills = [5] ∧
    killTime (resolve_indirect_kill c1WitState 5 (0, 2, 0) none) 5 = some (0, 2, 0) ∧
    (retroStep c1WitState (5, ((0, 2, 0), none))).kills = [5] ∧
    killTime (retroStep c1WitState (5, ((0, 2, 0), none))) 5 = some (0, 0, 4) := by
  have h1 := (c1_indirect_attribution.1 c1WitState 5 (0, 2, 0) none
    (mkGameObject cfg0 5 "T" "tank" "") (by decide) (by decide) (by decide)).1
    (by constructor <;> decide)
  have h2 := c1_indirect_attribution.2 c1WitState 5 (0, 2, 0) none
    (mkGameObject cfg0 5 "T" "tank" "") ⟨3, 5, 1/5, (0, 0, 4)⟩
    (by decide) (by decide) (by decide) (by decide) (by decide) (by decide)
  exact ⟨by simpa using h1.1, h1.2, by simpa using h2.1, h2.2⟩

/-- Invariant: the credited-kill list has pairwise-distinct target ids and
every credited target is registered with a non-Excluded category. -/
def KillInv (st : MissionStats) : Prop :=
  st.kills.Nodup ∧
  ∀ tid ∈ st.kills, ∃ o : GameObject,
    alookup st.objects tid = some o ∧ ¬ o.category = "Excluded"

/-- `KillInv` only looks at `kills` and `objects`. -/
theorem killInv_of_eq (st st' : MissionStats) (h : KillInv st)
    (hk : st'.kills = st.kills) (ho : st'.objects = st.objects) : KillInv st' := by
  unfold KillInv at *
  rw [hk, ho]
  exact h

/-- `add_kill` preserves the invariant. -/
theorem killInv_add_kill (st : MissionStats) (tid : Int) (ts : HMS)
    (h : KillInv st) : KillInv (add_kill st tid ts) := by
  unfold add_kill
  cases hobj : alookup st.objects tid with
  | none => exact h
  | some obj =>
    dsimp only
    by_cases hcat : obj.category = "Excluded"
    · rw [if_pos hcat]
      exact h
    · rw [if_neg hcat]
      have hmemprop : ∀ k, k ∈ st.kills → ∃ o : GameObject,
          alookup (aupsert st.objects tid
            { obj with state := "Destroyed", time_of_kill := some ts }) k = some o ∧
          ¬ o.category = "Excluded" := by
        intro k hk
        by_cases hkt : k = tid
        · subst hkt
          exact ⟨{ obj with state := "Destroyed", time_of_kill := some ts },
                 alookup_aupsert_eq _ _ _, by simpa using hcat⟩
        · obtain ⟨o, ho, hoc⟩ := h.2 k hk
          exact ⟨o, by rw [alookup_aupsert_ne _ _ _ _ hkt]; exact ho, hoc⟩
      by_cases hmem : tid ∈ st.kills
      · rw [if_pos (by simpa using hmem)]
        exact ⟨h.1, hmemprop⟩
      · rw [if_neg (by simpa using hmem)]
        refine ⟨?_, ?_⟩
        · rw [List.nodup_append]
          exact ⟨h.1, List.nodup_singleton _,
                 by simpa [List.disjoint_singleton] using hmem⟩
        · intro k hk
          rcases List.mem_append.mp hk with hk | hk
          · exact hmemprop k hk
          · have : k = tid := by simpa using hk
            subst this
            exact ⟨{ obj with state := "Destroyed", time_of_kill := some ts },
                   alookup_aupsert_eq _ _ _, by simpa using hcat⟩

/-- `setObjAltitude` preserves the invariant (category untouched). -/
theorem killInv_setObjAltitude (st : MissionStats) (tid : Int) (alt : Option Int)
    (h : KillInv st) : KillInv (setObjAltitude st tid alt) := by
  refine ⟨by rw [setObjAltitude_kills]; exact h.1, ?_⟩
  intro k hk
  rw [setObjAltitude_kills] at hk
  obtain ⟨o, ho, hoc⟩ := h.2 k hk
  by_cases hkt : k = tid
  · subst hkt
    rw [alookup_setObjAltitude_self, ho]
    cases alt with
    | none => exact ⟨o, rfl, hoc⟩
    | some a => exact ⟨{ o with altitude := some a }, rfl, by simpa using hoc⟩
  · refine ⟨o, ?_, hoc⟩
    cases heq : alookup st.objects tid with
    | none =>
      cases halt : alt <;> simpa [setObjAltitude, heq, halt] using ho
    | some o2 =>
      cases halt : alt with
      | none => simpa [setObjAltitude, heq, halt] using ho
      | some a =>
        simpa [setObjAltitude, heq, halt, alookup_aupsert_ne _ _ _ _ hkt] using ho

/-- `resolve_indirect_kill` preserves the invariant. -/
theorem killInv_resolve (st : MissionStats) (tid : Int) (ts : HMS) (alt : Option Int)
    (h : KillInv st) : KillInv (resolve_indirect_kill st tid ts alt) := by
  unfold resolve_indirect_kill
  split
  · exact killInv_add_kill _ _ _ (killInv_setObjAltitude _ _ _ h)
  · exact h

/-- `retroStep` preserves the invariant. -/
theorem killInv_retroStep (st : MissionStats) (entry : Int × (HMS × Option Int))
    (h : KillInv st) : KillInv (retroStep st entry) := by
  unfold retroStep
  split
  · exact h
  · split
    · split
      · exact killInv_add_kill _ _ _ (killInv_setObjAltitude _ _ _ h)
      · exact h
    · exact h

/-- One event-loop step preserves the invariant. -/
theorem killInv_eventStep (ls : LoopState) (ln : LogLine)
    (h : KillInv ls.stats) : KillInv (eventStep ls ln).stats := by
  by_cases h2 : ln.atype = 2
  · simp only [eventStep, if_pos h2]
    refine killInv_of_eq _ _ h ?_ ?_ <;> (dsimp only; (repeat' split); all_goals rfl)
  by_cases h3 : ln.atype = 3
  · simp only [eventStep, if_neg h2, if_pos h3]
    split
    · exact h
    · split
      · exact killInv_add_kill _ _ _ (killInv_setObjAltitude _ _ _ h)
      · split
        · exact killInv_resolve _ _ _ _ h
        · exact h
  by_cases h5 : ln.atype = 5
  · simp only [eventStep, if_neg h2, if_neg h3, if_pos h5]
    split
    · exact killInv_of_eq _ _ h rfl rfl
    · exact h
  by_cases h18 : ln.atype = 18
  · simp only [eventStep, if_neg h2, if_neg h3, if_neg h5, if_pos h18]
    split
    · exact killInv_of_eq _ _ h rfl rfl
    · exact h
  by_cases h67 : ln.atype = 6 ∨ ln.atype = 7
  · simp only [eventStep, if_neg h2, if_neg h3, if_neg h5, if_neg h18, if_pos h67]
    split
    · refine killInv_of_eq _ _ h ?_ ?_ <;> (dsimp only; (repeat' split); all_goals rfl)
    · exact h
  · simp only [eventStep, if_neg h2, if_neg h3, if_neg h5, if_neg h18, if_neg h67]
    exact h

/-- The registration pass never touches the kill list. -/
theorem registerLine_kills (cfg : CatConfig) (st : MissionStats) (ln : LogLine) :
    (registerLine cfg st ln).kills = st.kills := by
  unfold registerLine add_object
  split_ifs <;> rfl

/-- After the whole registration pass the kill list is still empty. -/
theorem registerFold_kills (cfg : CatConfig) (lines : List LogLine) :
    (lines.foldl (registerLine cfg) initStats).kills = [] := by
  suffices hgen : ∀ (st : MissionStats) (ls : List LogLine),
      (ls.foldl (registerLine cfg) st).kills = st.kills by
    exact hgen initStats lines
  intro st ls
  induction ls generalizing st with
  | nil => rfl
  | cons ln tl ih => rw [List.foldl_cons, ih, registerLine_kills]

/-- The invariant survives any run of event-loop steps. -/
theorem killInv_eventFold (ls : LoopState) (lines : List LogLine)
    (h : KillInv ls.stats) : KillInv (lines.foldl eventStep ls).stats := by
  induction lines generalizing ls with
  | nil => exact h
  | cons ln tl ih => exact ih _ (killInv_eventStep ls ln h)

/-- The invariant survives any run of retroactive steps. -/
theorem killInv_retroFold (st : MissionStats) (entries : List (Int × (HMS × Option Int)))
    (h : KillInv st) : KillInv (entries.foldl retroStep st) := by
  induction entries generalizing st with
  | nil => exact h
  | cons e tl ih => exact ih _ (killInv_retroStep st e h)

/-- `parachutePhase` only rewrites the final-state label. -/
theorem killInv_parachute (st : MissionStats) (lines : List LogLine)
    (h : KillInv st) : KillInv (parachutePhase st lines) := by
  unfold parachutePhase
  split_ifs with hx hw
  · exact killInv_of_eq _ _ h rfl rfl
  · exact killInv_of_eq _ _ h rfl rfl
  · exact h

/-- A kill list with no duplicates satisfies the invariant vacuously when
empty; package the start-of-loop state. -/
theorem killInv_runStats (cfg : CatConfig) (lines : List LogLine) :
    KillInv (runStats cfg lines) := by
  unfold runStats
  refine killInv_parachute _ _ (killInv_retroFold _ _ (killInv_eventFold _ _ ?_))
  refine ⟨?_, ?_⟩
  · rw [registerFold_kills]
    exact List.nodup_nil
  · intro tid htid
    rw [registerFold_kills] at htid
    exact absurd htid (List.not_mem_nil tid)

/-- C6: no target id ever appears twice in the credited-kill list — at
every intermediate point of the event loop and retroactive pass, and in
the final state; moreover the retroactive pass leaves the state untouched
on a target that is already credited (direct attribution suppresses the
indirect pass). -/
theorem c6_no_double_credit :
    (∀ (cfg : CatConfig) (lines : List LogLine) (n m : Nat),
      ((((lines.take n).foldl eventStep ⟨lines.foldl (registerLine cfg) initStats, []⟩).destroyed.take m).foldl
        retroStep ((lines.take n).foldl eventStep ⟨lines.foldl (registerLine cfg) initStats, []⟩).stats).kills.Nodup) ∧
    (∀ (cfg : CatConfig) (lines : List LogLine), (runStats cfg lines).kills.Nodup) ∧
    (∀ (st : MissionStats) (entry : Int × (HMS × Option Int)),
      entry.1 ∈ st.kills → retroStep st entry = st) := by
  refine ⟨?_, ?_, ?_⟩
  · intro cfg lines n m
    have h0 : KillInv (⟨lines.foldl (registerLine cfg) initStats, []⟩ : LoopState).stats := by
      refine ⟨?_, ?_⟩
      · rw [registerFold_kills]
        exact List.nodup_nil
      · intro tid htid
        rw [registerFold_kills] at htid
        exact absurd htid (List.not_mem_nil tid)
    exact (killInv_retroFold _ _ (killInv_eventFold _ _ h0)).1
  · intro cfg lines
    exact (killInv_runStats cfg lines).1
  · intro st entry hmem
    unfold retroStep
    split
    · rfl
    · have hall : ¬ (st.kills.all (fun k => decide (k ≠ entry.1)) = true) := by
        intro hall
        have hc := List.all_eq_true.mp hall entry.1 hmem
        simp at hc
      split_ifs with h1 <;> rfl

/-- A state that already credits target 5. -/
def c6WitState : MissionStats := { initStats with kills := [5] }

/-- Witness for `c6_no_double_credit`: the C1 run's kill list is
duplicate-free, and a retroactive step on an already-credited target is a
no-op. -/
theorem c6_witness :
    (runStats cfg0 c1Input).kills.Nodup ∧
    retroStep c6WitState (5, ((0, 0, 0), none)) = c6WitState :=
  ⟨c6_no_double_credit.2.1 cfg0 c1Input,
   c6_no_double_credit.2.2 c6WitState (5, ((0, 0, 0), none)) (by decide)⟩

/-- C7: every credited target resolves, through the registry, to an
object whose category is not "Excluded"; consequently no Excluded object
ever appears in `to_json`'s kill list (from which all kill counts are
computed). -/
theorem c7_excluded_never_credited :
    (∀ (cfg : CatConfig) (lines : List LogLine) (tid : Int),
      tid ∈ (runStats cfg lines).kills →
      ∃ o : GameObject, alookup (runStats cfg lines).objects tid = some o ∧
        ¬ o.category = "Excluded") ∧
    (∀ (cfg : CatConfig) (lines : List LogLine) (k : GameObject),
      k ∈ killsOf (runStats cfg lines) → ¬ k.category = "Excluded") := by
  refine ⟨?_, ?_⟩
  · intro cfg lines tid h
    exact (killInv_runStats cfg lines).2 tid h
  · intro cfg lines k hk
    unfold killsOf at hk
    have hk' := List.mem_filter.mp hk
    obtain ⟨tid, htid, hlook⟩ := List.mem_filterMap.mp hk'.1
    obtain ⟨o, ho, hoc⟩ := (killInv_runStats cfg lines).2 tid htid
    have heq : o = k := by
      rw [ho] at hlook
      exact Option.some.inj hlook
    exact heq ▸ hoc

/-- Witness for `c7_excluded_never_credited` at the C1 run and target 5. -/
theorem c7_witness :
    5 ∈ (runStats cfg0 c1Input).kills ∧
    (∃ o : GameObject, alookup (runStats cfg0 c1Input).objects 5 = some o ∧
      ¬ o.category = "Excluded") :=
  ⟨by decide, c7_excluded_never_credited.1 cfg0 c1Input 5 (by decide)⟩

/-- `add_kill` leaves the damage accumulators, wounded flag and player
context untouched. -/
theorem add_kill_wt (st : MissionStats) (tid : Int) (ts : HMS) :
    (add_kill st tid ts).total_pilot_damage = st.total_pilot_damage ∧
    (add_kill st tid ts).wounded = st.wounded := by
  unfold add_kill
  split
  · exact ⟨rfl, rfl⟩
  · dsimp only
    split_ifs <;> exact ⟨rfl, rfl⟩

/-- `setObjAltitude` likewise. -/
theorem setObjAltitude_wt (st : MissionStats) (tid : Int) (alt : Option Int) :
    (setObjAltitude st tid alt).total_pilot_damage = st.total_pilot_damage ∧
    (setObjAltitude st tid alt).wounded = st.wounded := by
  unfold setObjAltitude
  split <;> exact ⟨rfl, rfl⟩

/-- `_resolve_indirect_kill` likewise. -/
theorem resolve_wt (st : MissionStats) (tid : Int) (ts : HMS) (alt : Option Int) :
    (resolve_indirect_kill st tid ts alt).total_pilot_damage = st.total_pilot_damage ∧
    (resolve_indirect_kill st tid ts alt).wounded = st.wounded := by
  unfold resolve_indirect_kill
  split_ifs
  · rw [(add_kill_wt _ _ _).1, (add_kill_wt _ _ _).2,
        (setObjAltitude_wt _ _ _).1, (setObjAltitude_wt _ _ _).2]
    exact ⟨rfl, rfl⟩
  · exact ⟨rfl, rfl⟩

/-- Every event other than a damage line leaves the pilot-damage
accumulator and wounded flag unchanged. -/
theorem eventStep_wt_other (ls : LoopState) (ln : LogLine) (h2 : ¬ ln.atype = 2) :
    (eventStep ls ln).stats.total_pilot_damage = ls.stats.total_pilot_damage ∧
    (eventStep ls ln).stats.wounded = ls.stats.wounded := by
  by_cases h3 : ln.atype = 3
  · simp only [eventStep, if_neg h2, if_pos h3]
    split
    · exact ⟨rfl, rfl⟩
    · split
      · constructor
        · rw [(add_kill_wt _ _ _).1, (setObjAltitude_wt _ _ _).1]
        · rw [(add_kill_wt _ _ _).2, (setObjAltitude_wt _ _ _).2]
      · split
        · exact ⟨(resolve_wt _ _ _ _).1, (resolve_wt _ _ _ _).2⟩
        · exact ⟨rfl, rfl⟩
  by_cases h5 : ln.atype = 5
  · simp only [eventStep, if_neg h2, if_neg h3, if_pos h5]
    split <;> exact ⟨rfl, rfl⟩
  by_cases h18 : ln.atype = 18
  · simp only [eventStep, if_neg h2, if_neg h3, if_neg h5, if_pos h18]
    split <;> exact ⟨rfl, rfl⟩
  by_cases h67 : ln.atype = 6 ∨ ln.atype = 7
  · simp only [eventStep, if_neg h2, if_neg h3, if_neg h5, if_neg h18, if_pos h67]
    split
    · refine ⟨?_, ?_⟩ <;> ((repeat' split) <;> (first | rfl | trivial))
    · exact ⟨rfl, rfl⟩
  · simp only [eventStep, if_neg h2, if_neg h3, if_neg h5, if_neg h18, if_neg h67]
    constructor <;> trivial

/-- On a damage line, the pilot-damage accumulator grows by a nonnegative
amount and the wounded flag is re-derived from the updated accumulator. -/
theorem eventStep_damage_shape (ls : LoopState) (ln : LogLine) (h2 : ln.atype = 2) :
    ∃ t : ℚ, 0 ≤ t ∧
      (eventStep ls ln).stats.total_pilot_damage = ls.stats.total_pilot_damage + t ∧
      (eventStep ls ln).stats.wounded =
        (if 1/100 < ls.stats.total_pilot_damage + t then true else ls.stats.wounded) := by
  simp only [eventStep, add_hit, if_pos h2]
  split_ifs with ha hp hw hw2 hp2 hw3 hw4
  · exact ⟨fD ln.dmg, le_of_lt hp.2, rfl, by simp_all⟩
  · exact ⟨fD ln.dmg, le_of_lt hp.2, rfl, by simp_all⟩
  · exact ⟨0, le_refl 0, by simp, by simp_all⟩
  · exact ⟨0, le_refl 0, by simp, by simp_all⟩
  · exact ⟨fD ln.dmg, le_of_lt hp2.2, rfl, by simp_all⟩
  · exact ⟨fD ln.dmg, le_of_lt hp2.2, rfl, by simp_all⟩
  · exact ⟨0, le_refl 0, by simp, by simp_all⟩
  · exact ⟨0, le_refl 0, by simp, by simp_all⟩

/-- Invariant: the wounded flag holds exactly when the cumulative pilot
damage exceeds the 0.01 threshold. -/
def WoundInv (st : MissionStats) : Prop :=
  (st.wounded = true ↔ 1/100 < st.total_pilot_damage)

/-- One event-loop step preserves `WoundInv`. -/
theorem woundInv_eventStep (ls : LoopState) (ln : LogLine)
    (h : WoundInv ls.stats) : WoundInv (eventStep ls ln).stats := by
  by_cases h2 : ln.atype = 2
  · obtain ⟨t, ht0, htot, hw⟩ := eventStep_damage_shape ls ln h2
    unfold WoundInv at *
    rw [htot, hw]
    split_ifs with hc
    · exact ⟨fun _ => hc, fun _ => rfl⟩
    · constructor
      · intro hwd
        exact absurd (lt_of_lt_of_le (h.mp hwd) (le_add_of_nonneg_right ht0)) hc
      · intro hcc
        exact absurd hcc hc
  · obtain ⟨htot, hwd⟩ := eventStep_wt_other ls ln h2
    unfold WoundInv at *
    rw [htot, hwd]
    exact h

/-- The accumulator never decreases across a step. -/
theorem eventStep_total_mono (ls : LoopState) (ln : LogLine) :
    ls.stats.total_pilot_damage ≤ (eventStep ls ln).stats.total_pilot_damage := by
  by_cases h2 : ln.atype = 2
  · obtain ⟨t, ht0, htot, _⟩ := eventStep_damage_shape ls ln h2
    rw [htot]
    exact le_add_of_nonneg_right ht0
  · rw [(eventStep_wt_other ls ln h2).1]

/-- The wounded flag is never reset by a step. -/
theorem eventStep_wounded_mono (ls : LoopState) (ln : LogLine)
    (h : ls.stats.wounded = true) : (eventStep ls ln).stats.wounded = true := by
  by_cases h2 : ln.atype = 2
  · obtain ⟨t, ht0, htot, hw⟩ := eventStep_damage_shape ls ln h2
    rw [hw]
    split_ifs <;> simp [h]
  · rw [(eventStep_wt_other ls ln h2).2]
    exact h

/-- The wounded flag is never reset along any run of steps. -/
theorem eventFold_wounded_mono (ls : LoopState) (lines : List LogLine)
    (h : ls.stats.wounded = true) : (lines.foldl eventStep ls).stats.wounded = true := by
  induction lines generalizing ls with
  | nil => exact h
  | cons ln tl ih => exact ih _ (eventStep_wounded_mono ls ln h)

/-- `WoundInv` survives any run of steps. -/
theorem woundInv_eventFold (ls : LoopState) (lines : List LogLine)
    (h : WoundInv ls.stats) : WoundInv (lines.foldl eventStep ls).stats := by
  induction lines generalizing ls with
  | nil => exact h
  | cons ln tl ih => exact ih _ (woundInv_eventStep ls ln h)

/-- Registration leaves wounded and the accumulators at their initial
values. -/
theorem registerLine_wt (cfg : CatConfig) (st : MissionStats) (ln : LogLine) :
    (registerLine cfg st ln).total_pilot_damage = st.total_pilot_damage ∧
    (registerLine cfg st ln).wounded = st.wounded := by
  unfold registerLine add_object
  split_ifs <;> exact ⟨rfl, rfl⟩

/-- After the registration pass: accumulator 0, wounded false. -/
theorem registerFold_wt (cfg : CatConfig) (lines : List LogLine) :
    (lines.foldl (registerLine cfg) initStats).total_pilot_damage = 0 ∧
    (lines.foldl (registerLine cfg) initStats).wounded = false := by
  suffices hgen : ∀ (st : MissionStats) (ls : List LogLine),
      (ls.foldl (registerLine cfg) st).total_pilot_damage = st.total_pilot_damage ∧
      (ls.foldl (registerLine cfg) st).wounded = st.wounded by
    exact hgen initStats lines
  intro st ls
  induction ls generalizing st with
  | nil => exact ⟨rfl, rfl⟩
  | cons ln tl ih =>
    rw [List.foldl_cons]
    obtain ⟨h1, h2⟩ := ih (registerLine cfg st ln)
    rw [h1, h2, (registerLine_wt cfg st ln).1, (registerLine_wt cfg st ln).2]
    exact ⟨rfl, rfl⟩

/-- Player context is fixed for the whole event loop. -/
theorem eventStep_pids (ls : LoopState) (ln : LogLine) :
    (eventStep ls ln).stats.player_pid = ls.stats.player_pid ∧
    (eventStep ls ln).stats.player_id = ls.stats.player_id ∧
    (eventStep ls ln).stats.player_plid = ls.stats.player_plid := by
  have haddk : ∀ (st : MissionStats) (tid : Int) (ts : HMS),
      (add_kill st tid ts).player_pid = st.player_pid ∧
      (add_kill st tid ts).player_id = st.player_id ∧
      (add_kill st tid ts).player_plid = st.player_plid := by
    intro st tid ts
    unfold add_kill
    split
    · exact ⟨rfl, rfl, rfl⟩
    · dsimp only
      split_ifs <;> exact ⟨rfl, rfl, rfl⟩
  have hsa : ∀ (st : MissionStats) (tid : Int) (alt : Option Int),
      (setObjAltitude st tid alt).player_pid = st.player_pid ∧
      (setObjAltitude st tid alt).player_id = st.player_id ∧
      (setObjAltitude st tid alt).player_plid = st.player_plid := by
    intro st tid alt
    unfold setObjAltitude
    split <;> exact ⟨rfl, rfl, rfl⟩
  have hres : ∀ (st : MissionStats) (tid : Int) (ts : HMS) (alt : Option Int),
      (resolve_indirect_kill st tid ts alt).player_pid = st.player_pid ∧
      (resolve_indirect_kill st tid ts alt).player_id = st.player_id ∧
      (resolve_indirect_kill st tid ts alt).player_plid = st.player_plid := by
    intro st tid ts alt
    unfold resolve_indirect_kill
    split_ifs
    · refine ⟨?_, ?_, ?_⟩
      · rw [(haddk _ _ _).1, (hsa _ _ _).1]
      · rw [(haddk _ _ _).2.1, (hsa _ _ _).2.1]
      · rw [(haddk _ _ _).2.2, (hsa _ _ _).2.2]
    · exact ⟨rfl, rfl, rfl⟩
  by_cases h2 : ln.atype = 2
  · simp only [eventStep, if_pos h2]
    refine ⟨?_, ?_, ?_⟩ <;> ((repeat' split) <;> (first | rfl | trivial))
  by_cases h3 : ln.atype = 3
  · simp only [eventStep, if_neg h2, if_pos h3]
    split
    · exact ⟨rfl, rfl, rfl⟩
    · split
      · refine ⟨?_, ?_, ?_⟩
        · rw [(haddk _ _ _).1, (hsa _ _ _).1]
        · rw [(haddk _ _ _).2.1, (hsa _ _ _).2.1]
        · rw [(haddk _ _ _).2.2, (hsa _ _ _).2.2]
      · split
        · exact ⟨(hres _ _ _ _).1, (hres _ _ _ _).2.1, (hres _ _ _ _).2.2⟩
        · exact ⟨rfl, rfl, rfl⟩
  by_cases h5 : ln.atype = 5
  · simp only [eventStep, if_neg h2, if_neg h3, if_pos h5]
    split <;> exact ⟨rfl, rfl, rfl⟩
  by_cases h18 : ln.atype = 18
  · simp only [eventStep, if_neg h2, if_neg h3, if_neg h5, if_pos h18]
    split <;> exact ⟨rfl, rfl, rfl⟩
  by_cases h67 : ln.atype = 6 ∨ ln.atype = 7
  · simp only [eventStep, if_neg h2, if_neg h3, if_neg h5, if_neg h18, if_pos h67]
    split
    · refine ⟨?_, ?_, ?_⟩ <;> ((repeat' split) <;> (first | rfl | trivial))
    · exact ⟨rfl, rfl, rfl⟩
  · simp only [eventStep, if_neg h2, if_neg h3, if_neg h5, if_neg h18, if_neg h67]
    refine ⟨?_, ?_, ?_⟩ <;> trivial

/-- With the player context fixed at pilot id `p` (the normal case
`player_id = pid or plid` with a nonzero pid), one step adds to the
pilot-damage accumulator exactly the damage of an AType:2 line targeting
`p` with positive damage, and nothing otherwise. -/
theorem eventStep_pilot_total (ls : LoopState) (ln : LogLine) (p : Int)
    (hpid : ls.stats.player_pid = some p) (hid : ls.stats.player_id = some p) :
    (eventStep ls ln).stats.total_pilot_damage =
      ls.stats.total_pilot_damage +
        (if ln.atype = 2 ∧ iInt ln.tid = p ∧ 0 < fD ln.dmg then fD ln.dmg else 0) := by
  by_cases h2 : ln.atype = 2
  · by_cases hcp : iInt ln.tid = p ∧ 0 < fD ln.dmg
    · rw [if_pos ⟨h2, hcp.1, hcp.2⟩]
      have hcond : (ls.stats.player_pid = some (iInt ln.tid) ∨
          ls.stats.player_id = some (iInt ln.tid)) ∧ 0 < fD ln.dmg :=
        ⟨Or.inl (by rw [hpid, hcp.1]), hcp.2⟩
      simp only [eventStep, add_hit, if_pos h2]
      split_ifs with ha hpil hw hw2 hpil2 hw3 hw4 <;>
        first
          | rfl
          | (exact absurd hcond (by assumption))
    · rw [if_neg (fun hc => hcp ⟨hc.2.1, hc.2.2⟩), add_zero]
      simp only [eventStep, add_hit, if_pos h2]
      split_ifs with ha hpil hw hw2 hpil2 hw3 hw4 <;>
        first
          | rfl
          | simp_all
  · rw [if_neg (fun hc => h2 hc.1), add_zero]
    exact (eventStep_wt_other ls ln h2).1

/-- C8: after every prefix of the event loop the wounded flag holds
exactly when the cumulative pilot-damage fraction exceeds 0.01; once true
it survives every further event; and with the player context fixed at
pilot id `p` the accumulator is exactly the sum of the damage of AType:2
lines targeting `p` with positive damage. -/
theorem c8_wounded_threshold_sticky :
    (∀ (cfg : CatConfig) (lines : List LogLine) (n : Nat),
      ((lines.take n).foldl eventStep ⟨lines.foldl (registerLine cfg) initStats, []⟩).stats.wounded = true ↔
        1/100 < ((lines.take n).foldl eventStep ⟨lines.foldl (registerLine cfg) initStats, []⟩).stats.total_pilot_damage) ∧
    (∀ (ls : LoopState) (evs1 evs2 : List LogLine),
      (evs1.foldl eventStep ls).stats.wounded = true →
      ((evs1 ++ evs2).foldl eventStep ls).stats.wounded = true) ∧
    (∀ (ls : LoopState) (p : Int) (evs : List LogLine),
      ls.stats.player_pid = some p → ls.stats.player_id = some p →
      (evs.foldl eventStep ls).stats.total_pilot_damage =
        ls.stats.total_pilot_damage +
          (evs.map (fun ln =>
            if ln.atype = 2 ∧ iInt ln.tid = p ∧ 0 < fD ln.dmg then fD ln.dmg else 0)).sum) := by
  refine ⟨?_, ?_, ?_⟩
  · intro cfg lines n
    have h0 : WoundInv (⟨lines.foldl (registerLine cfg) initStats, []⟩ : LoopState).stats := by
      unfold WoundInv
      rw [(registerFold_wt cfg lines).1, (registerFold_wt cfg lines).2]
      constructor
      · intro hc
        exact absurd hc (by decide)
      · intro hc
        exact absurd hc (by norm_num)
    exact woundInv_eventFold _ _ h0
  · intro ls evs1 evs2 h
    rw [List.foldl_append]
    exact eventFold_wounded_mono _ _ h
  · intro ls p evs hpid hid
    induction evs generalizing ls with
    | nil => simp
    | cons ln tl ih =>
      rw [List.foldl_cons, List.map_cons, List.sum_cons]
      have hpid' : (eventStep ls ln).stats.player_pid = some p := by
        rw [(eventStep_pids ls ln).1, hpid]
      have hid' : (eventStep ls ln).stats.player_id = some p := by
        rw [(eventStep_pids ls ln).2.1, hid]
      rw [ih (eventStep ls ln) hpid' hid', eventStep_pilot_total ls ln p hpid hid]
      ring

/-- Pilot-damage line: 0.02 to target 1 at tick 100. -/
def c8DmgLn : LogLine :=
  { line0 with atype := 2, t := some 100, aid := some 9, tid := some 1, dmg := some (1/50) }

/-- An already-wounded loop state. -/
def c8WoundedLS : LoopState := ⟨{ initStats with wounded := true }, []⟩

/-- A clean loop state with pilot id 1. -/
def c8CleanLS : LoopState := ⟨{ initStats with player_pid := some 1, player_id := some 1 }, []⟩

/-- Witness for `c8_wounded_threshold_sticky`: the flag survives a further
damage event, and the accumulator sums exactly the pilot-targeted hit. -/
theorem c8_witness :
    (([] ++ [c8DmgLn]).foldl eventStep c8WoundedLS).stats.wounded = true ∧
    ([c8DmgLn].foldl eventStep c8CleanLS).stats.total_pilot_damage =
      c8CleanLS.stats.total_pilot_damage +
        ([c8DmgLn].map (fun ln =>
          if ln.atype = 2 ∧ iInt ln.tid = 1 ∧ 0 < fD ln.dmg then fD ln.dmg else 0)).sum :=
  ⟨c8_wounded_threshold_sticky.2.1 c8WoundedLS [] [c8DmgLn] (by decide),
   c8_wounded_threshold_sticky.2.2 c8CleanLS 1 [c8DmgLn] (by decide) (by decide)⟩

/-- The claim's four reclassification criteria, with criterion 4 in the
amended one-sided form (altitude less than 150 m ABOVE the airfield
elevation, no lower bound; skipped when either altitude is unknown). -/
def landingDamageCriteria (p : DetectParams) (e : Event) : Prop :=
  e.target = p.player_aircraft ∧
  (0 < time_diff_seconds e.time p.landing_time ∧
   time_diff_seconds e.time p.landing_time < 60) ∧
  (p.last_kill = none ∨
   ∃ k : HMS, p.last_kill = some k ∧ 60 < time_diff_seconds k e.time) ∧
  (p.airfield_alt = none ∨ e.altitude = none ∨
   ∃ (af : ℚ) (da : Int), p.airfield_alt = some af ∧ e.altitude = some da ∧
     (da : ℚ) - af < 150)

/-- The claim-side criteria coincide with the code's `is_landing_dmg`
decision. -/
theorem landingDamageCriteria_iff (p : DetectParams) (e : Event) :
    landingDamageCriteria p e ↔ isLandingDmg p e := by
  unfold landingDamageCriteria isLandingDmg timeSinceKill altCrit
  cases hlk : p.last_kill with
  | none =>
    cases haf : p.airfield_alt with
    | none => cases hda : e.altitude <;> simp
    | some af =>
      cases hda : e.altitude with
      | none => simp
      | some da => simp
  | some k =>
    cases haf : p.airfield_alt with
    | none => cases hda : e.altitude <;> simp
    | some af =>
      cases hda : e.altitude with
      | none => simp
      | some da => simp

instance (p : DetectParams) (e : Event) : Decidable (landingDamageCriteria p e) :=
  decidable_of_iff _ (landingDamageCriteria_iff p e).symm

/-- The per-event transform of a Damage-Taken event does not depend on the
running hard-landing flag, and lands at the same index. -/
theorem detectLoop_get_damage (p : DetectParams) :
    ∀ (l : List Event) (hard : Bool) (i : Nat) (e : Event),
      l[i]? = some e → e.etype = "Damage Taken" →
      (detectLoop p hard l).1[i]? =
        some (if isLandingDmg p e then markLandingDmg e else e) := by
  intro l
  induction l with
  | nil => intro hard i e h; simp at h
  | cons a tl ih =>
    intro hard i e h he
    cases i with
    | zero =>
      simp only [List.getElem?_cons_zero, Option.some.injEq] at h
      subst h
      unfold detectLoop
      rw [if_pos he]
      split_ifs with hd
      · simp
      · simp
    | succ n =>
      simp only [List.getElem?_cons_succ] at h
      unfold detectLoop
      by_cases h1 : a.etype = "Damage Taken"
      · rw [if_pos h1]
        by_cases hd : isLandingDmg p a
        · rw [if_pos hd]
          simpa only [List.getElem?_cons_succ] using ih true n e h he
        · rw [if_neg hd]
          simpa only [List.getElem?_cons_succ] using ih hard n e h he
      · rw [if_neg h1]
        by_cases h3 : (a.etype = "Landing" ∨ a.etype = "Crash") ∧ hard = true
        · rw [if_pos h3]
          simpa only [List.getElem?_cons_succ] using ih hard n e h he
        · rw [if_neg h3]
          simpa only [List.getElem?_cons_succ] using ih hard n e h he

/-- The final hard-landing flag: initial flag OR some Damage-Taken event
passes the test. -/
theorem detectLoop_flag (p : DetectParams) :
    ∀ (l : List Event) (hard : Bool),
      (detectLoop p hard l).2 =
        (hard || l.any (fun e => e.etype == "Damage Taken" && decide (isLandingDmg p e))) := by
  intro l
  induction l with
  | nil => intro hard; simp [detectLoop]
  | cons a tl ih =>
    intro hard
    unfold detectLoop
    split_ifs with h1 h2 h3
    · rw [ih true]
      simp [h1, h2]
    · rw [ih hard]
      simp only [List.any_cons]
      have : (a.etype == "Damage Taken" && decide (isLandingDmg p a)) = false := by
        simp [h1, h2]
      rw [this]
      simp
    · rw [ih hard]
      simp only [List.any_cons]
      have : (a.etype == "Damage Taken" && decide (isLandingDmg p a)) = false := by
        simp [h1]
      rw [this]
      simp
    · rw [ih hard]
      simp only [List.any_cons]
      have : (a.etype == "Damage Taken" && decide (isLandingDmg p a)) = false := by
        simp [h1]
      rw [this]
      simp

/-- C3 (amended): when a terminal Landing/Crash event exists, a
Damage-Taken event in the timeline is reclassified as Landing Damage
exactly when all four criteria hold — self-sourced, within (0, 60) s
before the terminal time, more than 60 s past the last credited kill (or
no kill), and at an altitude LESS THAN 150 m ABOVE the airfield elevation
(one-sided; the code puts no lower bound, and skips the test when either
altitude is unknown) — and whenever at least one event is reclassified the
hard-landing flag is set and a "Landed" final state is upgraded. -/
theorem c3_landing_damage_reclassification :
    ∀ (pa : Option String) (fs : String) (evs : List Event) (lt : HMS),
      (detectScan evs).2.2 = some lt →
      (∀ (i : Nat) (e : Event), evs[i]? = some e → e.etype = "Damage Taken" →
        (detect_landing_damage pa fs evs).1[i]? =
          some (if landingDamageCriteria
              ⟨pa, lt, lastKillTime evs, airfieldAlt (detectScan evs).1 (detectScan evs).2.1⟩ e
            then markLandingDmg e else e)) ∧
      ((∃ e ∈ evs, e.etype = "Damage Taken" ∧
          landingDamageCriteria
            ⟨pa, lt, lastKillTime evs, airfieldAlt (detectScan evs).1 (detectScan evs).2.1⟩ e) →
        (detect_landing_damage pa fs evs).2.1 = true ∧
        (fs = "Landed" → (detect_landing_damage pa fs evs).2.2 = "Landed (Hard Landing)")) := by
  intro pa fs evs lt hlt
  unfold detect_landing_damage
  dsimp only
  rw [hlt]
  constructor
  · intro i e hi he
    have hthis := detectLoop_get_damage
      ⟨pa, lt, lastKillTime evs, airfieldAlt (detectScan evs).1 (detectScan evs).2.1⟩
      evs false i e hi he
    have hiff := landingDamageCriteria_iff
      ⟨pa, lt, lastKillTime evs, airfieldAlt (detectScan evs).1 (detectScan evs).2.1⟩ e
    dsimp only
    rw [hthis]
    exact congrArg some (if_congr hiff rfl rfl).symm
  · rintro ⟨e, hmem, he, hcrit⟩
    have hflag : (detectLoop
        ⟨pa, lt, lastKillTime evs, airfieldAlt (detectScan evs).1 (detectScan evs).2.1⟩
        false evs).2 = true := by
      rw [detectLoop_flag]
      simp only [Bool.false_or]
      rw [List.any_eq_true]
      refine ⟨e, hmem, ?_⟩
      simp [he, (landingDamageCriteria_iff _ e).mp hcrit]
    constructor
    · dsimp only
      exact hflag
    · intro hfs
      dsimp only
      rw [if_pos ⟨hflag, hfs⟩]

/-- A takeoff at altitude 1000 m. -/
def c3CexTakeoff : Event := takeoffEvent (0, 0, 0) (some 1000) 0

/-- A self-sourced damage event far BELOW the airfield elevation. -/
def c3CexDmg : Event := damageEvent (0, 10, 0) "il2" (.aircraft 5) (some 0) 30000

/-- The terminal landing event, also at 1000 m. -/
def c3CexLand : Event := outcomeEvent (0, 10, 30) "Landing" (some 1000) 31500

/-- C3 counterexample timeline. -/
def c3CexEvents : List Event := [c3CexTakeoff, c3CexDmg, c3CexLand]

/-- C3 counterexample: the damage event sits 1000 m BELOW the airfield
elevation — not "within 150 m" of it as the claim requires — yet the code
reclassifies it as Landing Damage (its test `damage_alt - airfield_alt <
150` is one-sided) and sets the hard-landing flag. -/
theorem c3_counterexample :
    ((detect_landing_damage (some "il2") "Landed" c3CexEvents).1[1]?).map
      (fun e => e.etype) = some "Landing Damage" ∧
    (detect_landing_damage (some "il2") "Landed" c3CexEvents).2.1 = true ∧
    ¬ |(0 : ℚ) - 1000| < 150 := by
  refine ⟨by decide, by decide, by norm_num⟩

/-- A qualifying self-sourced damage event 45 s before terminal, 120 m
above the airfield. -/
def c3WitDmg : Event := damageEvent (0, 10, 0) "il2" (.aircraft 5) (some 220) 30000

/-- C3 witness timeline (takeoff 100 m, landing 100 m, damage at 220 m). -/
def c3WitEvents : List Event :=
  [takeoffEvent (0, 0, 0) (some 100) 0, c3WitDmg,
   outcomeEvent (0, 10, 45) "Landing" (some 100) 31750]

/-- Witness for `c3_landing_damage_reclassification`: the spec's own
boundary scenario (45 s before terminal, no kill, 120 m relative
altitude) is reclassified and upgrades the final state. -/
theorem c3_witness :
    (detect_landing_damage (some "il2") "Landed" c3WitEvents).1[1]? =
      some (markLandingDmg c3WitDmg) ∧
    (detect_landing_damage (some "il2") "Landed" c3WitEvents).2.1 = true ∧
    (detect_landing_damage (some "il2") "Landed" c3WitEvents).2.2 = "Landed (Hard Landing)" := by
  have h1 := (c3_landing_damage_reclassification (some "il2") "Landed" c3WitEvents
    (0, 10, 45) (by decide)).1 1 c3WitDmg (by decide) (by decide)
  have h2 := (c3_landing_damage_reclassification (some "il2") "Landed" c3WitEvents
    (0, 10, 45) (by decide)).2 ⟨c3WitDmg, by decide, by decide, by decide⟩
  exact ⟨by rw [h1]; decide, h2.1, h2.2 rfl⟩

/-- A Damage-Taken event changes nothing in the terminal scan. -/
theorem scanStep_damage (acc : Option Int × Option Int × Option HMS) (e : Event)
    (he : e.etype = "Damage Taken") : scanStep acc e = acc := by
  unfold scanStep
  rw [if_neg (fun hc => by rw [he] at hc; cases hc with
      | inl h => exact absurd h (by decide)
      | inr h => exact absurd h (by decide))]
  rw [if_neg (fun hc => by rw [he] at hc; exact absurd hc.1 (by decide))]

/-- Appending aggregated damage events does not move the terminal scan. -/
theorem detectScan_append_damage (nd B : List Event)
    (hB : ∀ e ∈ B, e.etype = "Damage Taken") :
    detectScan (nd ++ B) = detectScan nd := by
  unfold detectScan
  rw [List.foldl_append]
  induction B generalizing nd with
  | nil => rfl
  | cons e tl ih =>
    rw [List.foldl_cons, scanStep_damage _ e (hB e (by simp))]
    exact ih nd (fun x hx => hB x (by simp [hx]))

/-- Nor the last credited kill. -/
theorem lastKillTime_append_damage (nd B : List Event)
    (hB : ∀ e ∈ B, e.etype = "Damage Taken") :
    lastKillTime (nd ++ B) = lastKillTime nd := by
  unfold lastKillTime
  rw [List.reverse_append, List.find?_append]
  have hnone : B.reverse.find? (fun e => e.etype == "Kill") = none := by
    rw [List.find?_eq_none]
    intro x hx
    have := hB x (List.mem_reverse.mp hx)
    simp [this]
  rw [hnone]
  rfl

/-- On an all-damage list the loop is a pointwise map, and the flag
collects whether any event qualifies. -/
theorem detectLoop_all_damage (p : DetectParams) (B : List Event)
    (hB : ∀ e ∈ B, e.etype = "Damage Taken") (hard : Bool) :
    detectLoop p hard B =
      (B.map (fun e => if isLandingDmg p e then markLandingDmg e else e),
       hard || B.any (fun e => decide (isLandingDmg p e))) := by
  induction B generalizing hard with
  | nil => simp [detectLoop]
  | cons e tl ih =>
    have he := hB e (by simp)
    have htl : ∀ x ∈ tl, x.etype = "Damage Taken" := fun x hx => hB x (by simp [hx])
    unfold detectLoop
    rw [if_pos he]
    by_cases hd : isLandingDmg p e
    · rw [if_pos hd, ih htl true]
      simp [hd]
    · rw [if_neg hd, ih htl hard]
      simp [hd]

/-- Decomposition of the reclassification loop over a list whose suffix is
all Damage-Taken events. -/
theorem detectLoop_append_damage (p : DetectParams) (nd B : List Event)
    (hB : ∀ e ∈ B, e.etype = "Damage Taken") (hard : Bool) :
    detectLoop p hard (nd ++ B) =
      ((detectLoop p hard nd).1 ++
        B.map (fun e => if isLandingDmg p e then markLandingDmg e else e),
       (detectLoop p hard nd).2 || B.any (fun e => decide (isLandingDmg p e))) := by
  induction nd generalizing hard with
  | nil =>
    rw [List.nil_append, detectLoop_all_damage p B hB hard]
    simp [detectLoop]
  | cons a tl ih =>
    rw [List.cons_append]
    unfold detectLoop
    by_cases h1 : a.etype = "Damage Taken"
    · rw [if_pos h1, if_pos h1]
      by_cases hd : isLandingDmg p a
      · rw [if_pos hd, if_pos hd, ih true]
        simp
      · rw [if_neg hd, if_neg hd, ih hard]
        simp
    · rw [if_neg h1, if_neg h1]
      by_cases h3 : (a.etype = "Landing" ∨ a.etype = "Crash") ∧ hard = true
      · rw [if_pos h3, if_pos h3, ih hard]
        simp
      · rw [if_neg h3, if_neg h3, ih hard]
        simp

/-- Every aggregated bucket event is a Damage-Taken event carrying the
bucket's stored time. -/
theorem bucketEvent_shape (k : Int × Int) (b : Bucket) (e : Event)
    (h : bucketEvent k b = some e) : e.etype = "Damage Taken" ∧ e.time = b.time := by
  unfold bucketEvent at h
  split_ifs at h <;>
    first
      | (cases h; exact ⟨rfl, rfl⟩)
      | (cases h)

/-- All aggregated damage events are Damage-Taken events. -/
theorem bucketsToEvents_all_damage (bs : List ((Int × Int) × Bucket)) :
    ∀ e ∈ bucketsToEvents bs, e.etype = "Damage Taken" := by
  intro e he
  obtain ⟨p, hp, hpe⟩ := List.mem_filterMap.mp he
  exact (bucketEvent_shape p.1 p.2 e hpe).1

/-- Well-formed "HH:MM:SS" triple: minutes and seconds within range (as
`mission_time_to_hhmmss` always produces). -/
def WFT (t : HMS) : Prop := 0 ≤ t.2.1 ∧ t.2.1 < 60 ∧ 0 ≤ t.2.2 ∧ t.2.2 < 60

instance (t : HMS) : Decidable (WFT t) := by
  unfold WFT
  exact inferInstance

/-- Storing under an absent key appends. -/
theorem aupsert_absent {α β : Type} [BEq α] (l : List (α × β)) (k : α) (v : β)
    (h : l.find? (fun p => p.1 == k) = none) : aupsert l k v = l ++ [(k, v)] := by
  simp [aupsert, h]

/-- Storing under a present key keeps the key sequence. -/
theorem aupsert_fst_of_mem {α β : Type} [BEq α] [LawfulBEq α]
    (l : List (α × β)) (k : α) (v : β) :
    ∀ p : α × β, ((if p.1 == k then (k, v) else p) : α × β).1 = p.1 := by
  intro p
  by_cases hc : (p.1 == k) = true
  · rw [if_pos hc]
    exact (eq_of_beq hc).symm
  · rw [if_neg hc]

/-- Membership after a store: the new pair or an original one. -/
theorem mem_aupsert {α β : Type} [BEq α] (l : List (α × β)) (k : α) (v : β) :
    ∀ kb ∈ aupsert l k v, kb = (k, v) ∨ kb ∈ l := by
  unfold aupsert
  split
  · intro kb hkb
    obtain ⟨p, hp, hpe⟩ := List.mem_map.mp hkb
    by_cases hc : (p.1 == k) = true
    · left
      rw [← hpe, if_pos hc]
    · right
      rw [← hpe, if_neg hc]
      exact hp
  · intro kb hkb
    rcases List.mem_append.mp hkb with h | h
    · right
      exact h
    · left
      simpa using h

/-- A successful lookup exhibits a member with that key. -/
theorem alookup_mem {α β : Type} [BEq α] [LawfulBEq α]
    (l : List (α × β)) (k : α) (b : β) (h : alookup l k = some b) : (k, b) ∈ l := by
  unfold alookup at h
  cases hf : l.find? (fun p => p.1 == k) with
  | none => rw [hf] at h; cases h
  | some p =>
    rw [hf] at h
    have hmem := List.mem_of_find?_eq_some hf
    have hpred := List.find?_some hf
    have hk : p.1 = k := eq_of_beq hpred
    have hb : p.2 = b := by simpa using h
    have : p = (k, b) := Prod.ext hk hb
    rw [← this]
    exact hmem

/-- `bucketAdd` never touches the stored display time. -/
theorem bucketAdd_time (b : Bucket) (d : Option DmgStr) : (bucketAdd b d).time = b.time := by
  unfold bucketAdd
  cases d with
  | none => rfl
  | some x => cases x <;> rfl

/-- Invariant of the `damage_by_time` dict: pairwise-distinct minute keys,
and each bucket's stored time decodes to its key and is well formed. -/
def BInv (bs : List ((Int × Int) × Bucket)) : Prop :=
  List.Pairwise (fun x y => x.1 ≠ y.1) bs ∧
  ∀ kb ∈ bs, kb.2.time.1 = kb.1.1 ∧ kb.2.time.2.1 = kb.1.2 ∧ WFT kb.2.time

/-- Storing a value with an unchanged time under a present key preserves
the invariant. -/
theorem bInv_aupsert_present (bs : List ((Int × Int) × Bucket)) (k : Int × Int)
    (b v : Bucket) (hb : alookup bs k = some b) (hv : v.time = b.time)
    (h : BInv bs) : BInv (aupsert bs k v) := by
  have hs : (bs.find? (fun p => p.1 == k)).isSome = true := by
    unfold alookup at hb
    cases hf : bs.find? (fun p => p.1 == k) with
    | none => rw [hf] at hb; cases hb
    | some p => rfl
  constructor
  · unfold aupsert
    rw [if_pos hs]
    rw [List.pairwise_map]
    refine h.1.imp ?_
    intro x y hxy
    rw [aupsert_fst_of_mem bs k v x, aupsert_fst_of_mem bs k v y]
    exact hxy
  · intro kb hkb
    rcases mem_aupsert bs k v kb hkb with hkb' | hkb'
    · have hbprop := h.2 (k, b) (alookup_mem bs k b hb)
      rw [hkb']
      dsimp only
      rw [hv]
      exact hbprop
    · exact h.2 kb hkb'

/-- One aggregation step preserves the dict invariant. -/
theorem bInv_splitStep (acc : List Event × List ((Int × Int) × Bucket)) (e : Event)
    (hwf : WFT e.time) (h : BInv acc.2) : BInv (splitStep acc e).2 := by
  unfold splitStep
  by_cases hd : e.etype = "Damage Taken"
  · rw [if_pos hd]
    dsimp only
    by_cases hs : (alookup acc.2 (dmgKey e)).isSome = true
    · rw [if_pos hs]
      obtain ⟨b, hb⟩ := Option.isSome_iff_exists.mp hs
      rw [hb]
      exact bInv_aupsert_present acc.2 (dmgKey e) b _ hb (bucketAdd_time b e.damage) h
    · rw [if_neg hs]
      have hnone : acc.2.find? (fun p => p.1 == dmgKey e) = none := by
        unfold alookup at hs
        cases hf : acc.2.find? (fun p => p.1 == dmgKey e) with
        | none => rfl
        | some p => rw [hf] at hs; simp at hs
      have hlook1 : alookup (acc.2 ++ [(dmgKey e, bucketInit e)]) (dmgKey e) =
          some (bucketInit e) := by
        unfold alookup
        rw [List.find?_append, hnone]
        simp [List.find?]
      have hinv1 : BInv (acc.2 ++ [(dmgKey e, bucketInit e)]) := by
        constructor
        · rw [List.pairwise_append]
          refine ⟨h.1, List.pairwise_singleton _ _, ?_⟩
          intro x hx y hy
          have hx' := List.find?_eq_none.mp hnone x hx
          have hy' : y = (dmgKey e, bucketInit e) := by simpa using hy
          rw [hy']
          intro hcontra
          exact hx' (by simp [hcontra])
        · intro kb hkb
          rcases List.mem_append.mp hkb with hkb' | hkb'
          · exact h.2 kb hkb'
          · have : kb = (dmgKey e, bucketInit e) := by simpa using hkb'
            rw [this]
            exact ⟨rfl, rfl, hwf⟩
      rw [hlook1]
      exact bInv_aupsert_present _ (dmgKey e) (bucketInit e) _ hlook1
        (bucketAdd_time _ e.damage) hinv1
  · rw [if_neg hd]
    exact h

/-- The whole aggregation maintains the dict invariant. -/
theorem bInv_splitDamage (evs : List Event) (hwf : ∀ e ∈ evs, WFT e.time) :
    BInv (splitDamage evs).2 := by
  unfold splitDamage
  suffices hgen : ∀ (l : List Event) (acc : List Event × List ((Int × Int) × Bucket)),
      BInv acc.2 → (∀ e ∈ l, WFT e.time) → BInv (l.foldl splitStep acc).2 by
    refine hgen evs ([], []) ⟨List.Pairwise.nil, ?_⟩ hwf
    intro kb hkb
    cases hkb
  intro l
  induction l with
  | nil => intro acc hacc _; exact hacc
  | cons e tl ih =>
    intro acc hacc hl
    rw [List.foldl_cons]
    exact ih (splitStep acc e) (bInv_splitStep acc e (hl e (by simp)) hacc)
      (fun x hx => hl x (by simp [hx]))

/-- Strict ordering on sort keys. -/
def evLT (a b : Event) : Prop := timeKey a < timeKey b

instance : IsAntisymm Event evLT := ⟨fun _ _ h1 h2 => absurd h2 (lt_asymm h1)⟩

/-- The stable sort of a concatenation inserts the prefix into the sorted
suffix. -/
theorem sortEvents_append (X Y : List Event) :
    sortEvents (X ++ Y) = X.foldr (List.orderedInsert evLE) (sortEvents Y) := by
  unfold sortEvents
  induction X with
  | nil => simp
  | cons a tl ih => simp [List.insertionSort, ih]

/-- Distinct minute keys decode to distinct second counts. -/
theorem hmsSecs_ne_of_key_ne (t1 t2 : HMS) (h1 : WFT t1) (h2 : WFT t2)
    (hk : ¬ (t1.1 = t2.1 ∧ t1.2.1 = t2.2.1)) : hmsSecs t1 ≠ hmsSecs t2 := by
  obtain ⟨a1, b1, c1⟩ := t1
  obtain ⟨a2, b2, c2⟩ := t2
  unfold WFT at h1 h2
  unfold hmsSecs
  dsimp only at *
  intro he
  exact hk (by constructor <;> omega)

/-- Permuting a list with pairwise-distinct sort keys does not change its
stable sort. -/
theorem sortEvents_perm_eq (Y1 Y2 : List Event) (hp : Y1.Perm Y2)
    (hpw : List.Pairwise (fun a b => timeKey a ≠ timeKey b) Y1) :
    sortEvents Y1 = sortEvents Y2 := by
  have hs1 : List.Sorted evLE (sortEvents Y1) := List.sorted_insertionSort evLE Y1
  have hs2 : List.Sorted evLE (sortEvents Y2) := List.sorted_insertionSort evLE Y2
  have hperm1 : (sortEvents Y1).Perm Y1 := List.perm_insertionSort evLE Y1
  have hperm2 : (sortEvents Y2).Perm Y2 := List.perm_insertionSort evLE Y2
  have hsym : ∀ {x y : Event}, timeKey x ≠ timeKey y → timeKey y ≠ timeKey x :=
    fun hab he => hab he.symm
  have hpw1 : List.Pairwise (fun a b => timeKey a ≠ timeKey b) (sortEvents Y1) :=
    (List.Perm.pairwise_iff hsym hperm1).mpr hpw
  have hpw2 : List.Pairwise (fun a b => timeKey a ≠ timeKey b) (sortEvents Y2) :=
    (List.Perm.pairwise_iff hsym hperm2).mpr ((List.Perm.pairwise_iff hsym hp).mp hpw)
  have hst1 : List.Sorted evLT (sortEvents Y1) :=
    (hs1.and hpw1).imp (fun h => lt_of_le_of_ne h.1 h.2)
  have hst2 : List.Sorted evLT (sortEvents Y2) :=
    (hs2.and hpw2).imp (fun h => lt_of_le_of_ne h.1 h.2)
  exact List.eq_of_perm_of_sorted (hperm1.trans (hp.trans hperm2.symm)) hst1 hst2

/-- The aggregated damage events of an invariant-satisfying dict have
pairwise-distinct sort keys. -/
theorem bucketsToEvents_pairwise (bs : List ((Int × Int) × Bucket)) (h : BInv bs) :
    List.Pairwise (fun a b : Event => timeKey a ≠ timeKey b) (bucketsToEvents bs) := by
  unfold bucketsToEvents
  induction bs with
  | nil => exact List.Pairwise.nil
  | cons kb tl ih =>
    have hpw := List.pairwise_cons.mp h.1
    have htl : BInv tl := ⟨hpw.2, fun x hx => h.2 x (by simp [hx])⟩
    rw [List.filterMap_cons]
    cases hbe : bucketEvent kb.1 kb.2 with
    | none => exact ih htl
    | some ev =>
      rw [List.pairwise_cons]
      refine ⟨?_, ih htl⟩
      intro e' he'
      obtain ⟨p, hpmem, hpe⟩ := List.mem_filterMap.mp he'
      have hev := bucketEvent_shape kb.1 kb.2 ev hbe
      have hev' := bucketEvent_shape p.1 p.2 e' hpe
      have hkb := h.2 kb (by simp)
      have hp' := h.2 p (by simp [hpmem])
      have hkne : kb.1 ≠ p.1 := hpw.1 p hpmem
      unfold timeKey
      rw [hev.2, hev'.2]
      apply hmsSecs_ne_of_key_ne _ _ hkb.2.2 hp'.2.2
      intro hc
      apply hkne
      have h1 : kb.1.1 = p.1.1 := by rw [← hkb.1, ← hp'.1, hc.1]
      have h2 : kb.1.2 = p.1.2 := by rw [← hkb.2.1, ← hp'.2.1, hc.2]
      exact Prod.ext h1 h2

/-- Permutation preserves `List.any`. -/
theorem perm_any_eq {α : Type} (l1 l2 : List α) (hp : l1.Perm l2) (f : α → Bool) :
    l1.any f = l2.any f := by
  cases h2 : l2.any f with
  | true =>
    obtain ⟨x, hx, hfx⟩ := List.any_eq_true.mp h2
    exact List.any_eq_true.mpr ⟨x, hp.mem_iff.mpr hx, hfx⟩
  | false =>
    rw [List.any_eq_false] at h2 ⊢
    intro x hx
    exact h2 x (hp.mem_iff.mp hx)

/-- C9: the assembled timeline and final-state label do not depend on the
iteration order of the `damage_by_time` dict — replacing the aggregation
buckets by ANY permutation of them yields the identical sorted timeline
and summary label.  Together with the engine being a pure function of its
input (first conjunct: the pipeline is definitionally `assembleWith` of
the aggregation split), two runs on an identical event sequence produce
identical output. -/
theorem c9_timeline_order_independent :
    (∀ st : MissionStats,
      assembleTimeline st =
        assembleWith st.player_aircraft st.final_state
          (splitDamage (st.events ++ killEvents st)).1
          (splitDamage (st.events ++ killEvents st)).2) ∧
    (∀ (pa : Option String) (fs : String) (evs : List Event)
        (bs2 : List ((Int × Int) × Bucket)),
      (∀ e ∈ evs, WFT e.time) →
      (splitDamage evs).2.Perm bs2 →
      assembleWith pa fs (splitDamage evs).1 bs2 =
        assembleWith pa fs (splitDamage evs).1 (splitDamage evs).2) := by
  constructor
  · intro st
    rfl
  · intro pa fs evs bs2 hwf hperm
    have hinv : BInv (splitDamage evs).2 := bInv_splitDamage evs hwf
    have hd1 : ∀ e ∈ bucketsToEvents (splitDamage evs).2, e.etype = "Damage Taken" :=
      bucketsToEvents_all_damage _
    have hd2 : ∀ e ∈ bucketsToEvents bs2, e.etype = "Damage Taken" :=
      bucketsToEvents_all_damage _
    have hpermB : (bucketsToEvents (splitDamage evs).2).Perm (bucketsToEvents bs2) :=
      hperm.filterMap _
    have hpwB1 := bucketsToEvents_pairwise _ hinv
    have hscan1 := detectScan_append_damage (splitDamage evs).1 _ hd1
    have hscan2 := detectScan_append_damage (splitDamage evs).1 _ hd2
    have hlk1 := lastKillTime_append_damage (splitDamage evs).1 _ hd1
    have hlk2 := lastKillTime_append_damage (splitDamage evs).1 _ hd2
    unfold assembleWith detect_landing_damage
    dsimp only
    rw [hscan1, hscan2, hlk1, hlk2]
    cases hlt : (detectScan (splitDamage evs).1).2.2 with
    | none =>
      dsimp only
      refine Prod.ext ?_ rfl
      dsimp only
      rw [sortEvents_append, sortEvents_append,
          sortEvents_perm_eq _ _ hpermB hpwB1]
    | some lt =>
      dsimp only
      rw [detectLoop_append_damage _ _ _ hd1 false,
          detectLoop_append_damage _ _ _ hd2 false]
      have htf : ∀ e : Event,
          timeKey (if isLandingDmg
              ⟨pa, lt, lastKillTime (splitDamage evs).1,
               airfieldAlt (detectScan (splitDamage evs).1).1
                 (detectScan (splitDamage evs).1).2.1⟩ e
            then markLandingDmg e else e) = timeKey e := by
        intro e
        unfold timeKey
        split <;> rfl
      have hpwmap : List.Pairwise (fun a b => timeKey a ≠ timeKey b)
          ((bucketsToEvents (splitDamage evs).2).map
            (fun e => if isLandingDmg
                ⟨pa, lt, lastKillTime (splitDamage evs).1,
                 airfieldAlt (detectScan (splitDamage evs).1).1
                   (detectScan (splitDamage evs).1).2.1⟩ e
              then markLandingDmg e else e)) := by
        rw [List.pairwise_map]
        refine hpwB1.imp ?_
        intro a b hab
        rw [htf a, htf b]
        exact hab
      have hsorteq := sortEvents_perm_eq _ _
        (hpermB.map (fun e => if isLandingDmg
            ⟨pa, lt, lastKillTime (splitDamage evs).1,
             airfieldAlt (detectScan (splitDamage evs).1).1
               (detectScan (splitDamage evs).1).2.1⟩ e
          then markLandingDmg e else e)) hpwmap
      have hany := perm_any_eq _ _ hpermB
        (fun e => decide (isLandingDmg
          ⟨pa, lt, lastKillTime (splitDamage evs).1,
           airfieldAlt (detectScan (splitDamage evs).1).1
             (detectScan (splitDamage evs).1).2.1⟩ e))
      refine Prod.ext ?_ ?_
      · dsimp only
        rw [sortEvents_append, sortEvents_append, hsorteq]
      · dsimp only
        rw [hany]

/-- Events for the C9 witness: a takeoff and damage in two different
minutes. -/
def c9Evs : List Event :=
  [takeoffEvent (0, 0, 0) (some 100) 0,
   damageEvent (0, 1, 0) "a" (.aircraft 5) (some 50) 3000,
   damageEvent (0, 2, 0) "b" (.pilot 3) (some 60) 6000]

/-- Witness for `c9_timeline_order_independent`: reversing the bucket
dict leaves the assembled timeline unchanged. -/
theorem c9_witness :
    assembleWith none "Landed" (splitDamage c9Evs).1 ((splitDamage c9Evs).2.reverse) =
      assembleWith none "Landed" (splitDamage c9Evs).1 (splitDamage c9Evs).2 :=
  c9_timeline_order_independent.2 none "Landed" c9Evs ((splitDamage c9Evs).2.reverse)
    (by decide) (List.reverse_perm _).symm
